import Mathlib

/-!
# Verification of AgentifUI data-layer and chat-orchestration claims

Shallow embedding of the TypeScript sources:
* `lib/db/group-permissions.ts` — thin CRUD wrappers over Supabase,
* `lib/hooks/use-chat-interface.ts` — streaming chat orchestration.

External services (Supabase queries/RPCs, the Dify stream) are modelled as
oracle inputs: each embedded function receives the outcome of every external
call it makes and computes the same result the TypeScript code would.
-/

namespace AgentifUI

/-! ## JavaScript-level helpers -/

/-- JS truthiness of a `string | null | undefined` value: `null`, `undefined`
and the empty string are falsy. -/
def strFalsy : Option String → Bool
  | none => true
  | some s => s = ""

/-- JS `String.prototype.includes` on character lists. -/
def strIncludes (s pat : String) : Bool :=
  decide (pat.toList <:+: s.toList)

/-- JS `String.prototype.trim`: strip leading and trailing whitespace.
(Defined on the character list so that it evaluates inside the kernel.) -/
def jsTrim (s : String) : String :=
  ⟨((s.toList.dropWhile Char.isWhitespace).reverse.dropWhile
      Char.isWhitespace).reverse⟩

/-- JS `String.prototype.replace` with a plain-string pattern and empty
replacement: removes the first occurrence of `pat`. -/
def replaceFirst (s pat : List Char) : List Char :=
  if pat.isPrefixOf s then s.drop pat.length
  else
    match s with
    | [] => []
    | c :: cs => c :: replaceFirst cs pat

/-- When the pattern is a prefix, `replaceFirst` drops it. -/
theorem replaceFirst_dropHead (s pat : List Char)
    (h : pat.isPrefixOf s = true) :
    replaceFirst s pat = s.drop pat.length := by
  unfold replaceFirst
  rw [if_pos h]

/-! ## Result wrapper

Modelled from the spec: the data layer returns a `Result<T>` wrapper
(`lib/types/result`, not among the provided sources) — a success carrying the
data or a failure carrying an `Error` with a message. -/

/-- JS `Error` object, reduced to its message. -/
structure JsError where
  message : String
  deriving Repr, DecidableEq

/-- Modelled from the spec: the `Result<T>` wrapper returned by the data
layer (`lib/types/result`): `success(data)` or `failure(error)`. -/
inductive Result (α : Type) where
  | success : α → Result α
  | failure : JsError → Result α
  deriving Repr, DecidableEq

/-- Whether a `Result` is a failure. -/
def Result.isFailure : Result α → Bool
  | .failure _ => true
  | .success _ => false

/-- Outcome of one Supabase query as observed by the calling code:
the query resolves with possibly-null `data` and no error, resolves with an
in-band `error`, or the awaited promise rejects (an exception is raised). -/
inductive DbResp (α : Type) where
  | ok : Option α → DbResp α
  | err : String → DbResp α
  | exn : DbResp α
  deriving Repr, DecidableEq

/-- Whether the outcome is an in-band error or a raised exception. -/
def DbResp.isBad : DbResp α → Bool
  | .ok _ => false
  | .err _ => true
  | .exn => true

/-! ## Data layer: `lib/db/group-permissions.ts`

Each exported function is embedded as a pure function from the outcomes of
the Supabase calls it performs (its backend oracle) to the `Result` it
resolves to.  Row types follow the TypeScript interfaces of the file. -/

/-- A row of the `groups` table (the `Group` interface without the computed
`member_count`). -/
structure GroupRow where
  id : String
  name : String
  description : Option String
  created_by : String
  created_at : String
  deriving Repr, DecidableEq

/-- The `Group` interface: a `groups` row plus the optional `member_count`
computed by `getGroups`. -/
structure Group where
  id : String
  name : String
  description : Option String
  created_by : String
  created_at : String
  member_count : Option Nat
  deriving Repr, DecidableEq

/-- The joined `user:profiles(id, username, full_name, email)` record. -/
structure ProfileInfo where
  id : String
  username : Option String
  full_name : Option String
  email : Option String
  deriving Repr, DecidableEq

/-- The `GroupMember` interface. -/
structure GroupMember where
  id : String
  group_id : String
  user_id : String
  created_at : String
  user : Option ProfileInfo
  deriving Repr, DecidableEq

/-- The joined `app:service_instances(...)` record. -/
structure AppInfo where
  id : String
  display_name : Option String
  instance_id : String
  visibility : String
  deriving Repr, DecidableEq

/-- The `GroupAppPermission` interface. -/
structure GroupAppPermission where
  id : String
  group_id : String
  service_instance_id : String
  is_enabled : Bool
  usage_quota : Option Int
  used_count : Int
  created_at : String
  app : Option AppInfo
  deriving Repr, DecidableEq

/-- The `UserAccessibleApp` interface (the JSON `config` blob is kept as an
uninterpreted string). -/
structure UserAccessibleApp where
  service_instance_id : String
  display_name : Option String
  description : Option String
  instance_id : String
  api_path : String
  visibility : String
  config : String
  usage_quota : Option Int
  used_count : Int
  quota_remaining : Option Int
  group_name : Option String
  deriving Repr, DecidableEq

/-- The `AppPermissionCheck` interface. -/
structure AppPermissionCheck where
  has_access : Bool
  quota_remaining : Option Int
  error_message : Option String
  deriving Repr, DecidableEq

/-- The anonymous result-row type of `incrementAppUsage`. -/
structure IncrementResult where
  success : Bool
  new_used_count : Int
  quota_remaining : Option Int
  error_message : Option String
  deriving Repr, DecidableEq

/-- The `SearchableUser` interface. -/
structure SearchableUser where
  id : String
  username : Option String
  full_name : Option String
  email : Option String
  avatar_url : Option String
  role : String
  status : String
  deriving Repr, DecidableEq

/-- A row of the `profiles` table as relevant to `searchUsersForGroup`: the
selected columns plus `created_at`, which the query orders by. -/
structure ProfileRow where
  id : String
  username : Option String
  full_name : Option String
  email : Option String
  avatar_url : Option String
  role : String
  status : String
  created_at : String
  deriving Repr, DecidableEq

/-- The column projection of the `searchUsersForGroup` select. -/
def ProfileRow.toSearchable (u : ProfileRow) : SearchableUser :=
  { id := u.id, username := u.username, full_name := u.full_name,
    email := u.email, avatar_url := u.avatar_url, role := u.role,
    status := u.status }

/-- `getGroups` (lines 68–105): fetch all groups ordered by `created_at`,
then count the members of each group; a count query that reports an in-band
error contributes `member_count = 0`, a null count is coerced by
`count || 0`, and any rejected count promise makes the surrounding
`Promise.all` reject into the catch block.  `counts` maps a group id to the
outcome of its `group_members` count query.  `groupWithCount` is the row
enrichment performed for each group. -/
def groupWithCount (counts : String → DbResp Nat) (g : GroupRow) : Group :=
  { id := g.id, name := g.name, description := g.description,
    created_by := g.created_by, created_at := g.created_at,
    member_count := some (match counts g.id with
      | .ok c => c.getD 0
      | _ => 0) }

def getGroups (main : DbResp (List GroupRow)) (counts : String → DbResp Nat) :
    Result (List Group) :=
  match main with
  | .err m => .failure ⟨m⟩
  | .exn => .failure ⟨"获取群组列表失败"⟩
  | .ok data =>
    let rows := data.getD []
    if rows.any (fun g => decide (counts g.id = DbResp.exn)) then
      .failure ⟨"获取群组列表失败"⟩
    else
      .success (rows.map (groupWithCount counts))

/-- The row `createGroup` inserts: `description || null` coerces an absent or
empty description to null. -/
structure GroupInsert where
  name : String
  description : Option String
  deriving Repr, DecidableEq

/-- The row `createGroup` inserts (`description || null`). -/
def groupInsertReq (name : String) (description : Option String) :
    GroupInsert :=
  { name := name,
    description := if strFalsy description then none else description }

/-- `createGroup` (lines 110–138). -/
def createGroup (name : String) (description : Option String)
    (insert : GroupInsert → DbResp GroupRow) : Result (Option GroupRow) :=
  match insert (groupInsertReq name description) with
  | .ok g => .success g
  | .err m => .failure ⟨m⟩
  | .exn => .failure ⟨"创建群组失败"⟩

/-- The partial update passed to `updateGroup` (absent fields are not sent). -/
structure GroupPatch where
  name : Option String
  description : Option String
  deriving Repr, DecidableEq

/-- `updateGroup` (lines 143–167). -/
def updateGroup (groupId : String) (data : GroupPatch)
    (update : String × GroupPatch → DbResp GroupRow) : Result (Option GroupRow) :=
  match update (groupId, data) with
  | .ok g => .success g
  | .err m => .failure ⟨m⟩
  | .exn => .failure ⟨"更新群组失败"⟩

/-- `deleteGroup` (lines 172–188). -/
def deleteGroup (groupId : String) (del : String → DbResp Unit) :
    Result Unit :=
  match del groupId with
  | .ok _ => .success ()
  | .err m => .failure ⟨m⟩
  | .exn => .failure ⟨"删除群组失败"⟩

/-- `getGroupMembers` (lines 194–221): `data || []` replaces a null result
with the empty list. -/
def getGroupMembers (groupId : String)
    (query : String → DbResp (List GroupMember)) : Result (List GroupMember) :=
  match query groupId with
  | .ok data => .success (data.getD [])
  | .err m => .failure ⟨m⟩
  | .exn => .failure ⟨"获取群组成员失败"⟩

/-- `addGroupMember` (lines 226–259). -/
def addGroupMember (groupId userId : String)
    (insert : String × String → DbResp GroupMember) :
    Result (Option GroupMember) :=
  match insert (groupId, userId) with
  | .ok mem => .success mem
  | .err m => .failure ⟨m⟩
  | .exn => .failure ⟨"添加群组成员失败"⟩

/-- `removeGroupMember` (lines 264–287). -/
def removeGroupMember (groupId userId : String)
    (del : String × String → DbResp Unit) : Result Unit :=
  match del (groupId, userId) with
  | .ok _ => .success ()
  | .err m => .failure ⟨m⟩
  | .exn => .failure ⟨"移除群组成员失败"⟩

/-- `getGroupAppPermissions` (lines 293–320). -/
def getGroupAppPermissions (groupId : String)
    (query : String → DbResp (List GroupAppPermission)) :
    Result (List GroupAppPermission) :=
  match query groupId with
  | .ok data => .success (data.getD [])
  | .err m => .failure ⟨m⟩
  | .exn => .failure ⟨"获取群组应用权限失败"⟩

/-- The row `setGroupAppPermission` upserts when enabling. -/
structure PermUpsertRow where
  group_id : String
  service_instance_id : String
  is_enabled : Bool
  usage_quota : Option Int
  deriving Repr, DecidableEq

/-- JS `data.usage_quota || null`: null, undefined and the falsy quota `0`
are all coerced to null. -/
def coerceQuota : Option Int → Option Int
  | none => none
  | some q => if q = 0 then none else some q

/-- The row upserted by the enable branch of `setGroupAppPermission`:
`usage_quota` goes through the `|| null` coercion. -/
def permUpsertReq (groupId serviceInstanceId : String)
    (usage_quota : Option Int) : PermUpsertRow :=
  { group_id := groupId, service_instance_id := serviceInstanceId,
    is_enabled := true, usage_quota := coerceQuota usage_quota }

/-- The synthetic disabled record returned by the disable branch of
`setGroupAppPermission`. -/
def disabledPermRecord (groupId serviceInstanceId now : String) :
    GroupAppPermission :=
  { id := "", group_id := groupId,
    service_instance_id := serviceInstanceId, is_enabled := false,
    usage_quota := none, used_count := 0, created_at := now, app := none }

/-- `setGroupAppPermission` (lines 325–394): `is_enabled = true` upserts a
permission row; `is_enabled = false` deletes the row and fabricates a
disabled record with `created_at` taken from `new Date()` (the `now`
argument). -/
def setGroupAppPermission (groupId serviceInstanceId : String)
    (is_enabled : Bool) (usage_quota : Option Int)
    (upsert : PermUpsertRow → DbResp GroupAppPermission)
    (del : String × String → DbResp Unit) (now : String) :
    Result (Option GroupAppPermission) :=
  if is_enabled then
    match upsert (permUpsertReq groupId serviceInstanceId usage_quota) with
    | .ok p => .success p
    | .err m => .failure ⟨m⟩
    | .exn => .failure ⟨"设置群组应用权限失败"⟩
  else
    match del (groupId, serviceInstanceId) with
    | .ok _ => .success (some (disabledPermRecord groupId serviceInstanceId
        now))
    | .err m => .failure ⟨m⟩
    | .exn => .failure ⟨"设置群组应用权限失败"⟩

/-- `removeGroupAppPermission` (lines 399–422). -/
def removeGroupAppPermission (groupId serviceInstanceId : String)
    (del : String × String → DbResp Unit) : Result Unit :=
  match del (groupId, serviceInstanceId) with
  | .ok _ => .success ()
  | .err m => .failure ⟨m⟩
  | .exn => .failure ⟨"删除群组应用权限失败"⟩

/-- `removeAllGroupAppPermissions` (lines 428–449). -/
def removeAllGroupAppPermissions (serviceInstanceId : String)
    (del : String → DbResp Unit) : Result Unit :=
  match del serviceInstanceId with
  | .ok _ => .success ()
  | .err m => .failure ⟨m⟩
  | .exn => .failure ⟨"删除应用的所有组权限失败"⟩

/-- A Supabase RPC invocation: the function name and its named parameters
(`p_service_instance_id` and `p_increment` are absent for RPCs that do not
take them). -/
structure RpcReq where
  name : String
  p_user_id : String
  p_service_instance_id : Option String
  p_increment : Option Int
  deriving Repr, DecidableEq

/-- RPC response data as observed by the caller: PostgREST returns an array
of rows for set-returning functions, but the code defensively accepts a bare
object (`Array.isArray(data) ? data[0] : data`). -/
inductive ArrOrOne (α : Type) where
  | arr : List α → ArrOrOne α
  | one : α → ArrOrOne α
  deriving Repr, DecidableEq

/-- `Array.isArray(data) ? data[0] : data`, with null data and an empty
array both yielding a falsy result. -/
def firstRow : Option (ArrOrOne α) → Option α
  | none => none
  | some (.arr l) => l.head?
  | some (.one a) => some a

/-- The request `getUserAccessibleApps` sends:
`rpc('get_user_accessible_apps', { p_user_id })`. -/
def accessibleAppsReq (userId : String) : RpcReq :=
  { name := "get_user_accessible_apps", p_user_id := userId,
    p_service_instance_id := none, p_increment := none }

/-- The request `checkUserAppPermission` sends:
`rpc('check_user_app_permission', { p_user_id, p_service_instance_id })`. -/
def checkPermissionReq (userId serviceInstanceId : String) : RpcReq :=
  { name := "check_user_app_permission", p_user_id := userId,
    p_service_instance_id := some serviceInstanceId, p_increment := none }

/-- The request `incrementAppUsage` sends:
`rpc('increment_app_usage', { p_user_id, p_service_instance_id,
p_increment })`. -/
def incrementUsageReq (userId serviceInstanceId : String) (increment : Int) :
    RpcReq :=
  { name := "increment_app_usage", p_user_id := userId,
    p_service_instance_id := some serviceInstanceId,
    p_increment := some increment }

/-- `getUserAccessibleApps` (lines 455–475): delegates to the
`get_user_accessible_apps` RPC and wraps its rows (`data || []`). -/
def getUserAccessibleApps (userId : String)
    (rpc : RpcReq → DbResp (List UserAccessibleApp)) :
    Result (List UserAccessibleApp) :=
  match rpc (accessibleAppsReq userId) with
  | .ok data => .success (data.getD [])
  | .err m => .failure ⟨m⟩
  | .exn => .failure ⟨"获取应用列表失败"⟩

/-- `checkUserAppPermission` (lines 480–512): delegates to the
`check_user_app_permission` RPC, takes the first row, and falls back to a
denying success when the RPC returns no row. -/
def checkUserAppPermission (userId serviceInstanceId : String)
    (rpc : RpcReq → DbResp (ArrOrOne AppPermissionCheck)) :
    Result AppPermissionCheck :=
  match rpc (checkPermissionReq userId serviceInstanceId) with
  | .err m => .failure ⟨m⟩
  | .exn => .failure ⟨"权限检查失败"⟩
  | .ok data =>
    match firstRow data with
    | none => .success { has_access := false, quota_remaining := none,
                         error_message := some "权限检查失败" }
    | some r => .success r

/-- The TypeScript default for the `increment` parameter of
`incrementAppUsage`. -/
def incrementAppUsageDefaultIncrement : Int := 1

/-- `incrementAppUsage` (lines 517–549): delegates to the
`increment_app_usage` RPC and returns its first row (possibly undefined). -/
def incrementAppUsage (userId serviceInstanceId : String) (increment : Int)
    (rpc : RpcReq → DbResp (ArrOrOne IncrementResult)) :
    Result (Option IncrementResult) :=
  match rpc (incrementUsageReq userId serviceInstanceId increment) with
  | .err m => .failure ⟨m⟩
  | .exn => .failure ⟨"使用计数更新失败"⟩
  | .ok data => .success (firstRow data)

/-- Calling `incrementAppUsage` without the optional `increment` argument
uses the declared default of 1. -/
def incrementAppUsageNoArg (userId serviceInstanceId : String)
    (rpc : RpcReq → DbResp (ArrOrOne IncrementResult)) :
    Result (Option IncrementResult) :=
  incrementAppUsage userId serviceInstanceId incrementAppUsageDefaultIncrement
    rpc

/-- Character-wise lower-casing, modelling SQL `ilike` case folding. -/
def lowerChars (s : String) : List Char :=
  s.toList.map Char.toLower

/-- PostgREST `field.ilike.%term%`: case-insensitive containment; a null
field matches nothing. -/
def ilikeContains (field : Option String) (term : String) : Bool :=
  match field with
  | none => false
  | some s => decide (lowerChars term <:+: lowerChars s)

/-- The `or(username.ilike…, full_name.ilike…, email.ilike…)` disjunction of
`searchUsersForGroup`. -/
def searchMatches (searchTerm : String) (u : ProfileRow) : Bool :=
  ilikeContains u.username searchTerm || ilikeContains u.full_name searchTerm
    || ilikeContains u.email searchTerm

/-- Character-wise string order used to model the `created_at` ordering
(`a ≼ b` lexicographically on code points). -/
def charLe : List Char → List Char → Bool
  | [], _ => true
  | _ :: _, [] => false
  | a :: as, b :: bs => if a = b then charLe as bs else decide (a < b)

/-- `order('created_at', { ascending: false })`: newest first. -/
def createdAtDesc (a b : ProfileRow) : Prop :=
  charLe b.created_at.toList a.created_at.toList = true

instance : DecidableRel createdAtDesc := fun a b =>
  inferInstanceAs
    (Decidable (charLe b.created_at.toList a.created_at.toList = true))

/-- The server-side evaluation of the query built by `searchUsersForGroup`:
PostgREST conjoins the `eq`, `not … in` and `or(ilike…)` filters, orders by
`created_at` descending and applies `limit(20)` to the ordered result.  The
`not('id','in',…)` filter is only attached when `excludeUserIds` is
non-empty, and the `or` filter only when the trimmed search term is
non-empty (ids are modelled as comma-free, as the code serialises the
exclusion list by joining with commas). -/
def searchUsersQuery (profiles : List ProfileRow) (searchTerm : String)
    (excludeUserIds : List String) : List SearchableUser :=
  let q1 := profiles.filter (fun u => u.status == "active")
  let q2 := if excludeUserIds.length > 0 then
      q1.filter (fun u => !(excludeUserIds.contains u.id))
    else q1
  let q3 := if jsTrim searchTerm ≠ "" then q2.filter (searchMatches searchTerm)
    else q2
  ((q3.insertionSort createdAtDesc).take 20).map ProfileRow.toSearchable

/-- `searchUsersForGroup` (lines 565–604): `profiles` is the table the
backend evaluates the query against, `exec` the outcome of the round trip
(`ok none` models a null `data`, replaced by `[]`). -/
def searchUsersForGroup (searchTerm : String) (excludeUserIds : List String)
    (profiles : List ProfileRow) (exec : DbResp Unit) :
    Result (List SearchableUser) :=
  match exec with
  | .err m => .failure ⟨m⟩
  | .exn => .failure ⟨"搜索用户失败"⟩
  | .ok none => .success []
  | .ok (some _) => .success (searchUsersQuery profiles searchTerm
      excludeUserIds)

/-! ## Chat store: `lib/stores/chat-store`

The Zustand chat store itself is not among the provided sources; its state
shape and actions are modelled from the spec ("store (buffer/append message
chunks)", "persistence status (`pending|saved|error`)") and from how
`use-chat-interface.ts` drives them. -/

/-- Modelled from the spec: the client-side persistence-status enum
(`pending`, `saved`, `error`) tracking whether a chat message has been
durably written to Supabase (`lib/stores/chat-store`, not among the provided
sources). -/
inductive PersistStatus where
  | pending
  | saved
  | error
  deriving Repr, DecidableEq

/-- Frontend metadata fields of a message that the hook reads or writes. -/
structure MsgMetadata where
  stopped_manually : Bool
  stopped_at : Option String
  deriving Repr, DecidableEq

/-- Modelled from the spec: a chat-store `ChatMessage`, restricted to the
fields the embedded hook code reads or writes.  `persistenceStatus = none`
models the field being absent (never set). -/
structure ChatMsg where
  id : String
  text : String
  isUser : Bool
  isStreaming : Bool
  wasManuallyStopped : Bool
  persistenceStatus : Option PersistStatus
  db_id : Option String
  metadata : MsgMetadata
  token_count : Option Nat
  deriving Repr, DecidableEq

/-- Modelled from the spec: the chat-store state driven by the hook. -/
structure ChatState where
  messages : List ChatMsg
  streamingMessageId : Option String
  currentConversationId : Option String
  currentTaskId : Option String
  isWaitingForResponse : Bool
  deriving Repr, DecidableEq

/-- `messages.find(m => m.id === id)`. -/
def findMsg (s : ChatState) (id : String) : Option ChatMsg :=
  s.messages.find? (fun m => m.id == id)

/-- Apply `f` to every message whose id is `id` (store-internal update). -/
def mapMsg (id : String) (f : ChatMsg → ChatMsg) (s : ChatState) : ChatState :=
  { s with messages := s.messages.map (fun m => if m.id == id then f m else m) }

/-- Modelled from the spec: `addMessage` appends a message to the store. -/
def addMessage (m : ChatMsg) (s : ChatState) : ChatState :=
  { s with messages := s.messages ++ [m] }

/-- Modelled from the spec: `appendMessageChunk` appends a streamed chunk to
the end of the message's text. -/
def appendMessageChunk (id chunk : String) (s : ChatState) : ChatState :=
  mapMsg id (fun m => { m with text := m.text ++ chunk }) s

/-- Modelled from the spec: `finalizeStreamingMessage` clears the message's
streaming flag and, when it is the current streaming message, clears
`streamingMessageId`. -/
def finalizeStreamingMessage (id : String) (s : ChatState) : ChatState :=
  let s := mapMsg id (fun m => { m with isStreaming := false }) s
  if s.streamingMessageId == some id then
    { s with streamingMessageId := none }
  else s

/-- Modelled from the spec: `markAsManuallyStopped` marks the message as
manually stopped, ends its streaming state and clears `streamingMessageId`
when it is the current streaming message. -/
def markAsManuallyStopped (id : String) (s : ChatState) : ChatState :=
  let s := mapMsg id
    (fun m => { m with isStreaming := false, wasManuallyStopped := true }) s
  if s.streamingMessageId == some id then
    { s with streamingMessageId := none }
  else s

/-- `setIsWaitingForResponse`. -/
def setIsWaitingForResponse (b : Bool) (s : ChatState) : ChatState :=
  { s with isWaitingForResponse := b }

/-- `setCurrentTaskId`. -/
def setCurrentTaskId (t : Option String) (s : ChatState) : ChatState :=
  { s with currentTaskId := t }

/-- `setCurrentConversationId`. -/
def setCurrentConversationId (c : Option String) (s : ChatState) : ChatState :=
  { s with currentConversationId := c }

/-- A partial message update as passed to `updateMessage` (absent fields are
left unchanged). -/
structure MsgPatch where
  metadata : Option MsgMetadata
  wasManuallyStopped : Option Bool
  persistenceStatus : Option PersistStatus
  token_count : Option (Option Nat)
  deriving Repr, DecidableEq

/-- A patch that only sets `persistenceStatus`. -/
def statusPatch (st : PersistStatus) : MsgPatch :=
  { metadata := none, wasManuallyStopped := none, persistenceStatus := some st,
    token_count := none }

/-- Modelled from the spec: `updateMessage` merges the patch into the
message. -/
def updateMessage (id : String) (p : MsgPatch) (s : ChatState) : ChatState :=
  mapMsg id (fun m =>
    { m with
      metadata := p.metadata.getD m.metadata,
      wasManuallyStopped := p.wasManuallyStopped.getD m.wasManuallyStopped,
      persistenceStatus := match p.persistenceStatus with
        | none => m.persistenceStatus
        | some st => some st,
      token_count := p.token_count.getD m.token_count }) s

/-- Modelled from the spec: `selectIsProcessing` reports the store as
processing while a response is awaited or a message is streaming. -/
def selectIsProcessing (s : ChatState) : Bool :=
  s.isWaitingForResponse || s.streamingMessageId.isSome

/-- Asynchronous side effects requested by the hook (persistence calls and
the remote Dify stop), recorded rather than executed. -/
inductive HookAction where
  | saveMsg (messageId dbConvId : String)
  | saveStopped (messageId dbConvId : String)
  | remoteStop (appId taskId userId : String)
  | lookupConv (externalId : String)
  | startStream (appId : String)
  deriving Repr, DecidableEq

/-! ## `use-chat-interface.ts`: refs and chunk buffering -/

/-- The hook's mutable refs: the re-entrancy flag, the chunk buffer and
whether a flush timer is pending. -/
structure HookRefs where
  isSubmitting : Bool
  chunkBuffer : String
  timerActive : Bool
  deriving Repr, DecidableEq

/-- `CHUNK_APPEND_INTERVAL` (line 62): the batched-append interval in ms. -/
def CHUNK_APPEND_INTERVAL : Nat := 30

/-- `flushChunkBuffer` (lines 173–186): appends the buffered chunks to the
message when the id is truthy and the buffer non-empty, then clears the
buffer and cancels any pending flush timer. -/
def flushChunkBuffer (id : Option String) (s : ChatState) (r : HookRefs) :
    ChatState × HookRefs :=
  if ¬ strFalsy id ∧ r.chunkBuffer ≠ "" then
    (appendMessageChunk (id.getD "") r.chunkBuffer s,
     { r with chunkBuffer := "", timerActive := false })
  else
    (s, { r with timerActive := false })

/-! ## The streaming chunk loop of `handleSubmit` (lines 714–778) -/

/-- The assistant message created on the first streamed chunk (lines
719–723): empty text, streaming, no persistence status yet. -/
def newAssistantMessage (aid : String) : ChatMsg :=
  { id := aid, text := "", isUser := false, isStreaming := true,
    wasManuallyStopped := false, persistenceStatus := none, db_id := none,
    metadata := { stopped_manually := false, stopped_at := none },
    token_count := none }

/-- The user message created by `handleSubmit` (lines 349–355): persistence
status starts as `pending` (attachments are not modelled). -/
def newUserMessage (id text : String) : ChatMsg :=
  { id := id, text := text, isUser := true, isStreaming := false,
    wasManuallyStopped := false, persistenceStatus := some .pending,
    db_id := none,
    metadata := { stopped_manually := false, stopped_at := none },
    token_count := none }

/-- State local to the `for await` chunk loop: the store, the refs, the
`assistantMessageId` local, the `lastAppendTime` local and whether the loop
has hit its `break`. -/
structure LoopState where
  hook : ChatState
  refs : HookRefs
  assistantMessageId : Option String
  lastAppendTime : Nat
  broken : Bool
  deriving Repr, DecidableEq

/-- One event observed by the chunk loop: a chunk arriving from the stream
at time `now`, the pending flush timer firing, or an external manual stop
clearing `streamingMessageId` between iterations. -/
inductive StreamEvent where
  | chunk (c : String) (now : Nat)
  | timerFire (now : Nat)
  | externalStop (now : Nat)
  deriving Repr, DecidableEq

/-- The chunk strings of a trace, in arrival order. -/
def chunksOf (evs : List StreamEvent) : List String :=
  evs.filterMap (fun ev => match ev with
    | .chunk c _ => some c
    | _ => none)

/-- Whether the trace contains an external manual stop. -/
def hasStop (evs : List StreamEvent) : Bool :=
  evs.any (fun ev => match ev with
    | .externalStop _ => true
    | _ => false)

/-- One iteration of the `for await (const answerChunk of answerStream)`
body (lines 714–776): create the assistant message on the first chunk, then
buffer the chunk and flush when 30 ms have elapsed since the last append,
the buffer contains a newline, or it exceeds 200 characters; otherwise arm
the flush timer.  If the stream was stopped externally the message is marked
manually stopped and the loop breaks. -/
def processChunkEvent (aid c : String) (now : Nat) (ls : LoopState) :
    LoopState :=
  let ls :=
    if ls.hook.streamingMessageId = none ∧ ls.assistantMessageId = none then
      let s := addMessage (newAssistantMessage aid) ls.hook
      let s := { s with streamingMessageId := some aid }
      let s := setIsWaitingForResponse false s
      { ls with hook := s, assistantMessageId := some aid }
    else ls
  match ls.assistantMessageId with
  | none => ls
  | some id =>
    if ls.hook.streamingMessageId = some id then
      let buf := ls.refs.chunkBuffer ++ c
      let ls := { ls with refs := { ls.refs with chunkBuffer := buf } }
      if now - ls.lastAppendTime ≥ CHUNK_APPEND_INTERVAL
          ∨ buf.toList.contains '\n' ∨ buf.length > 200 then
        let fs := flushChunkBuffer (some id) ls.hook ls.refs
        { ls with hook := fs.1, refs := fs.2, lastAppendTime := now }
      else if ¬ ls.refs.timerActive then
        { ls with refs := { ls.refs with timerActive := true } }
      else ls
    else
      let stopped := ((findMsg ls.hook id).map
        (fun m => m.wasManuallyStopped)).getD false
      let ls := if ¬ stopped
        then { ls with hook := markAsManuallyStopped id ls.hook }
        else ls
      { ls with broken := true }

/-- Dispatch one loop event.  A chunk is ignored after the loop has broken
(the generator is no longer pulled); a cleared timer does not fire. -/
def processEvent (aid : String) (ev : StreamEvent) (ls : LoopState) :
    LoopState :=
  match ev with
  | .chunk c now =>
    if ls.broken then ls else processChunkEvent aid c now ls
  | .timerFire now =>
    if ls.refs.timerActive then
      let fs := flushChunkBuffer ls.assistantMessageId ls.hook ls.refs
      { ls with hook := fs.1, refs := fs.2, lastAppendTime := now }
    else ls
  | .externalStop _ =>
    { ls with hook := { ls.hook with streamingMessageId := none } }

/-- The whole chunk loop over a trace of events. -/
def runChunkLoop (aid : String) (evs : List StreamEvent) (ls : LoopState) :
    LoopState :=
  evs.foldl (fun ls ev => processEvent aid ev ls) ls

/-- The unconditional flush after the loop (line 778):
`flushChunkBuffer(assistantMessageId)`. -/
def finishStream (ls : LoopState) : LoopState :=
  let fs := flushChunkBuffer ls.assistantMessageId ls.hook ls.refs
  { ls with hook := fs.1, refs := fs.2 }

/-! ## Assistant-message persistence after the stream (lines 944–991) -/

/-- The post-stream save of the assistant message: finalize it if still
streaming, and when it has no `db_id`, is not yet saved and has non-blank
text, set its status to `pending` and attempt the save; the save's `catch`
sets the status to `error`.  `saveFails` is the outcome of the awaited save
promise. -/
def saveAssistantMessageAfterStream (aid dbConvId : String) (saveFails : Bool)
    (s : ChatState) : ChatState × List HookAction :=
  match findMsg s aid with
  | none => (s, [])
  | some m =>
    let s1 := if m.isStreaming then finalizeStreamingMessage aid s else s
    if m.db_id = none ∧ m.persistenceStatus ≠ some .saved
        ∧ jsTrim m.text ≠ "" then
      let s2 := updateMessage aid (statusPatch .pending) s1
      if saveFails then
        (updateMessage aid (statusPatch .error) s2, [.saveMsg aid dbConvId])
      else
        (s2, [.saveMsg aid dbConvId])
    else
      (s1, [])

/-! ## The zombie-stream self-healing check (lines 1557–1657) -/

/-- `lastStreamingCheckRef`: the message id, text content and timestamp
recorded by the previous check. -/
structure StreamCheckRef where
  messageId : String
  content : String
  lastUpdateTime : Nat
  deriving Repr, DecidableEq

/-- The interval passed to `setInterval(checkStreamingState, 10000)`
(line 1645). -/
def streamingCheckIntervalMs : Nat := 10000

/-- The staleness threshold after which an unchanged streaming message is
treated as a zombie (line 1594). -/
def zombieThresholdMs : Nat := 30000

/-- `checkStreamingState` (lines 1558–1642): one run of the periodic check.
Returns the updated store, the updated check ref, and any requested save. -/
def checkStreamingState (s : ChatState) (ref : Option StreamCheckRef)
    (dbConversationUUID : Option String) (now : Nat) :
    ChatState × Option StreamCheckRef × List HookAction :=
  match s.streamingMessageId with
  | none => (s, none, [])
  | some sid =>
    match findMsg s sid with
    | none => (s, none, [])
    | some msg =>
      if msg.isStreaming then
        match ref with
        | none => (s, some ⟨msg.id, msg.text, now⟩, [])
        | some r =>
          if msg.id = r.messageId ∧ msg.text = r.content then
            if now - r.lastUpdateTime > zombieThresholdMs then
              let s1 := setCurrentTaskId none (setIsWaitingForResponse false
                (finalizeStreamingMessage msg.id s))
              match dbConversationUUID with
              | some c =>
                if msg.persistenceStatus ≠ some .saved ∧ msg.db_id = none then
                  (updateMessage msg.id (statusPatch .pending) s1, none,
                   [.saveMsg msg.id c])
                else (s1, none, [])
              | none => (s1, none, [])
            else (s, some r, [])
          else (s, some ⟨msg.id, msg.text, now⟩, [])
      else (s, none, [])

/-! ## `handleStopProcessing` (lines 1303–1552) -/

/-- The inputs `handleStopProcessing` reads besides the store and the refs:
auth state, current app config, the hook's conversation ids, the URL
indicator, the outcome of the remote stop call, and the current time. -/
structure StopInput where
  currentUserId : Option String
  currentAppId : Option String
  appInstanceAvailable : Bool
  dbConversationUUID : Option String
  difyConversationId : Option String
  urlIndicatesNew : Bool
  remoteStopOk : Bool
  now : String
  deriving Repr, DecidableEq

/-- The zombie pre-check of `handleStopProcessing` (lines 1310–1357): the
current streaming message when it exists, is streaming, has non-blank
content and there is no current task id. -/
def stopZombieCheck (s : ChatState) : Option ChatMsg :=
  match s.streamingMessageId with
  | none => none
  | some sid =>
    match findMsg s sid with
    | none => none
    | some msg =>
      if msg.isStreaming ∧ jsTrim msg.text ≠ "" ∧ strFalsy s.currentTaskId
      then some msg
      else none

/-- `handleStopProcessing` (lines 1303–1552).  The dead
`updatePendingStatus` branch (lines 1392–1398, guarded by the contradictory
`isNewConversationFlow && currentConvId`) is omitted.  Asynchronous saves
are recorded as actions. -/
def handleStopProcessing (s : ChatState) (r : HookRefs) (inp : StopInput) :
    ChatState × HookRefs × List HookAction :=
  match stopZombieCheck s with
  | some msg =>
    -- repair path: finalize, reset flags, optionally save, and return early
    let s1 := setIsWaitingForResponse false
      (finalizeStreamingMessage msg.id s)
    let r1 := { r with isSubmitting := false }
    match inp.dbConversationUUID with
    | some c =>
      if msg.persistenceStatus ≠ some .saved ∧ msg.db_id = none then
        (updateMessage msg.id (statusPatch .pending) s1, r1,
         [.saveMsg msg.id c])
      else (s1, r1, [])
    | none => (s1, r1, [])
  | none =>
    if strFalsy inp.currentUserId then (s, r, [])
    else
      let appConfig := if ¬ strFalsy inp.currentAppId
          ∧ inp.appInstanceAvailable then inp.currentAppId else none
      match s.streamingMessageId with
      | none =>
        (setIsWaitingForResponse false s, { r with isSubmitting := false },
         [])
      | some sid =>
        -- clear the timer, flush the buffer, mark as manually stopped
        let fs := flushChunkBuffer (some sid) s { r with timerActive := false }
        let s2 := markAsManuallyStopped sid fs.1
        -- remote stop (lines 1400–1419): the remote call is issued only with
        -- a truthy task id and an app config; the task id is cleared when
        -- that call succeeds or when there is no app config (a remote
        -- failure is swallowed and leaves the task id in place)
        let stopActs : List HookAction :=
          if ¬ strFalsy s.currentTaskId ∧ appConfig.isSome then
            [HookAction.remoteStop (appConfig.getD "")
              (s.currentTaskId.getD "") (inp.currentUserId.getD "")]
          else []
        let s3 :=
          if ¬ strFalsy s.currentTaskId ∧ (appConfig = none ∨ inp.remoteStopOk)
          then setCurrentTaskId none s2
          else s2
        -- mark the interrupted message for saving (lines 1426–1449)
        let s4 := match findMsg s3 sid with
          | some _ => updateMessage sid
              { metadata :=
                  some { stopped_manually := true, stopped_at := some inp.now },
                wasManuallyStopped := some true,
                persistenceStatus := some .pending,
                token_count := none } s3
          | none => s3
        -- user-message save logic (lines 1453–1529)
        let userActs : List HookAction :=
          match inp.dbConversationUUID with
          | some c =>
            match (s4.messages.filter (fun m => m.isUser
                && m.persistenceStatus != some .saved
                && m.db_id == none)).getLast? with
            | some um =>
              if inp.urlIndicatesNew ∨ strFalsy inp.difyConversationId then
                [.saveMsg um.id c]
              else []
            | none => []
          | none =>
            if ¬ strFalsy inp.difyConversationId then
              [.lookupConv (inp.difyConversationId.getD "")]
            else []
        (setIsWaitingForResponse false s4,
         { fs.2 with isSubmitting := false }, stopActs ++ userActs)

/-! ## `handleSubmit`: guards and overall shape (lines 263–1244) -/

/-- Outcome of `ensureAppReady`/`validateConfig`: a resolved app id or a
raised configuration error. -/
inductive AppReady where
  | ok (appId : String)
  | error (msg : String)
  deriving Repr, DecidableEq

/-- The environment of one `handleSubmit` call: auth state, the outcome of
app-config resolution (`ensureAppReady`), the generated message ids, the
stream trace and the submission start time.  Conversation-id resolution and
message persistence are elided: they only emit asynchronous saves and never
touch the re-entrancy guard. -/
structure SubmitEnv where
  currentUserId : Option String
  appReady : AppReady
  userMsgId : String
  assistantMsgId : String
  events : List StreamEvent
  startTime : Nat
  deriving Repr, DecidableEq

/-- The error message added when app-config resolution fails (lines
317–327): an assistant message with persistence status `error`. -/
def appConfigErrorMessage (e : String) : ChatMsg :=
  { id := "", text := "抱歉，无法获取应用配置: " ++ e ++ "。请检查网络连接或联系管理员。",
    isUser := false, isStreaming := false, wasManuallyStopped := false,
    persistenceStatus := some .error, db_id := none,
    metadata := { stopped_manually := false, stopped_at := none },
    token_count := none }

/-- `handleSubmit` (lines 263–1244), reduced to its synchronous state
effects: the re-entrancy guards (lines 265–274), the auth guard, app-config
resolution, creation of the `pending` user message, the streaming chunk
loop, and the `finally` block that finalizes a still-streaming assistant
message and resets the flags. -/
def handleSubmit (msg : String) (env : SubmitEnv) (s : ChatState)
    (r : HookRefs) : ChatState × HookRefs × List HookAction :=
  if r.isSubmitting then (s, r, [])
  else if selectIsProcessing s then (s, r, [])
  else if strFalsy env.currentUserId then (s, r, [])
  else
    match env.appReady with
    | .error e => (addMessage (appConfigErrorMessage e) s, r, [])
    | .ok appId =>
      let r1 := { r with isSubmitting := true }
      let s1 := setIsWaitingForResponse true s
      let s2 := addMessage (newUserMessage env.userMsgId msg) s1
      let s3 := setCurrentTaskId none s2
      let r2 := { r1 with chunkBuffer := "" }
      let ls := finishStream (runChunkLoop env.assistantMsgId env.events
        { hook := s3, refs := r2, assistantMessageId := none,
          lastAppendTime := env.startTime, broken := false })
      let hook2 := match ls.assistantMessageId with
        | some a =>
          match findMsg ls.hook a with
          | some m => if m.isStreaming then finalizeStreamingMessage a ls.hook
              else ls.hook
          | none => ls.hook
        | none => ls.hook
      (setIsWaitingForResponse false hook2,
       { ls.refs with isSubmitting := false, timerActive := false },
       [.startStream appId])

/-! ## The route-listening effect (lines 191–261) -/

/-- The conversation-id triple kept by the hook. -/
structure ConvIds where
  difyConversationId : Option String
  dbConversationUUID : Option String
  conversationAppId : Option String
  deriving Repr, DecidableEq

/-- Outcome of `getConversationByExternalId` (from `lib/db/conversations`,
not among the provided sources; modelled from the spec's external/internal
id pairing): a record with the internal UUID and optional `app_id`, no
record, or a failed/raised lookup. -/
inductive ConvLookup where
  | found (id : String) (app_id : Option String)
  | notFound
  | failed
  deriving Repr, DecidableEq

/-- The route-listening effect (lines 191–261): for `/chat/…` paths that
contain neither `/chat/new` nor `/chat/temp-`, set the Dify id from the path
and resolve the database UUID and original `app_id` by external-id lookup
(a falsy `app_id` resolves to null); for `/chat/new` and `/chat/temp-…`
paths reset all three ids; any other path leaves the state alone. -/
def routeEffect (pathname : String) (lookup : String → ConvLookup)
    (ids : ConvIds) : ConvIds :=
  if ("/chat/".toList.isPrefixOf pathname.toList)
      ∧ ¬ strIncludes pathname "/chat/new" = true
      ∧ ¬ strIncludes pathname "/chat/temp-" = true then
    let pathConversationId : String :=
      ⟨replaceFirst pathname.toList "/chat/".toList⟩
    match lookup pathConversationId with
    | .found cid appId =>
      { difyConversationId := some pathConversationId,
        dbConversationUUID := some cid,
        conversationAppId := if strFalsy appId then none else appId }
    | .notFound =>
      { difyConversationId := some pathConversationId,
        dbConversationUUID := none, conversationAppId := none }
    | .failed =>
      { difyConversationId := some pathConversationId,
        dbConversationUUID := none, conversationAppId := none }
  else if pathname = "/chat/new" ∨ strIncludes pathname "/chat/temp-" = true
  then
    { difyConversationId := none, dbConversationUUID := none,
      conversationAppId := none }
  else ids

/-! ## Theorems -/

/-- Matching on the projected `SearchableUser` record (same fields as
`searchMatches` on the profile row). -/
def searchMatchesUser (searchTerm : String) (u : SearchableUser) : Bool :=
  ilikeContains u.username searchTerm || ilikeContains u.full_name searchTerm
    || ilikeContains u.email searchTerm

theorem searchMatches_toSearchable (t : String) (p : ProfileRow) :
    searchMatchesUser t p.toSearchable = searchMatches t p := rfl

/-- Claim C6: `getUserAccessibleApps`, `checkUserAppPermission` and
`incrementAppUsage` delegate to the Supabase RPC of the corresponding name
and return its (first-row) result with no permission logic of their own:
each function's result depends only on the response of its one RPC request;
when the check RPC returns no row, `checkUserAppPermission` succeeds with
`has_access = false` and a null `quota_remaining`; and `incrementAppUsage`
called without an increment uses the default of 1. -/
theorem rpc_delegation
    (u s : String)
    (rpcA rpcA' : RpcReq → DbResp (List UserAccessibleApp))
    (rpcC : RpcReq → DbResp (ArrOrOne AppPermissionCheck))
    (rpcI : RpcReq → DbResp (ArrOrOne IncrementResult))
    (n : Int) :
    ((accessibleAppsReq u).name = "get_user_accessible_apps"
      ∧ (checkPermissionReq u s).name = "check_user_app_permission"
      ∧ (incrementUsageReq u s n).name = "increment_app_usage")
    ∧ (rpcA (accessibleAppsReq u) = rpcA' (accessibleAppsReq u) →
        getUserAccessibleApps u rpcA = getUserAccessibleApps u rpcA')
    ∧ (∀ rows, rpcA (accessibleAppsReq u) = .ok (some rows) →
        getUserAccessibleApps u rpcA = .success rows)
    ∧ (∀ d, rpcC (checkPermissionReq u s) = .ok d → firstRow d = none →
        checkUserAppPermission u s rpcC = .success
          { has_access := false, quota_remaining := none,
            error_message := some "权限检查失败" })
    ∧ (∀ d row, rpcC (checkPermissionReq u s) = .ok d →
        firstRow d = some row →
        checkUserAppPermission u s rpcC = .success row)
    ∧ (∀ d, rpcI (incrementUsageReq u s n) = .ok d →
        incrementAppUsage u s n rpcI = .success (firstRow d))
    ∧ incrementAppUsageNoArg u s rpcI = incrementAppUsage u s 1 rpcI := by
  refine ⟨⟨rfl, rfl, rfl⟩, ?_, ?_, ?_, ?_, ?_, ?_⟩
  · intro h
    simp only [getUserAccessibleApps, h]
  · intro rows h
    simp only [getUserAccessibleApps, h, Option.getD]
  · intro d h h2
    simp only [checkUserAppPermission, h, h2]
  · intro d row h h2
    simp only [checkUserAppPermission, h, h2]
  · intro d h
    simp only [incrementAppUsage, h]
  · rfl

/-- Claim C6, witness: the delegation facts evaluated at concrete RPC
backends. -/
theorem rpc_delegation_witness :
    checkUserAppPermission "u1" "s1"
        (fun _ => .ok (some (.arr []))) = .success
      { has_access := false, quota_remaining := none,
        error_message := some "权限检查失败" } :=
  (rpc_delegation "u1" "s1" (fun _ => .ok none) (fun _ => .ok none)
      (fun _ => .ok (some (.arr []))) (fun _ => .ok none) 1).2.2.2.1
    (some (.arr [])) rfl rfl

/-- A negated boolean that tests true is false. -/
theorem bool_not_true {b : Bool} (h : (!b) = true) : b = false := by
  cases b
  · rfl
  · simp at h

/-- Every user returned by the evaluated search query stems from the
profiles table and passed every attached filter. -/
theorem mem_searchUsersQuery
    {profiles : List ProfileRow} {searchTerm : String} {excl : List String}
    {u : SearchableUser} (hu : u ∈ searchUsersQuery profiles searchTerm excl) :
    ∃ p : ProfileRow, p.toSearchable = u ∧ (p.status == "active") = true
      ∧ (excl.length > 0 → excl.contains p.id = false)
      ∧ (jsTrim searchTerm ≠ "" → searchMatches searchTerm p = true) := by
  simp only [searchUsersQuery, List.mem_map] at hu
  obtain ⟨p, hp, hpu⟩ := hu
  refine ⟨p, hpu, ?_⟩
  have hp2 := List.take_subset _ _ hp
  have hp3 := (List.perm_insertionSort _ _).mem_iff.mp hp2
  split_ifs at hp3 with h1 h2 h3
  · have A := List.mem_filter.mp hp3
    have B := List.mem_filter.mp A.1
    have C := List.mem_filter.mp B.1
    exact ⟨C.2, fun _ => bool_not_true B.2, fun _ => A.2⟩
  · have A := List.mem_filter.mp hp3
    have B := List.mem_filter.mp A.1
    exact ⟨B.2, fun hc => absurd hc h2, fun _ => A.2⟩
  · have A := List.mem_filter.mp hp3
    have B := List.mem_filter.mp A.1
    exact ⟨B.2, fun _ => bool_not_true A.2, fun hne => absurd hne h1⟩
  · have A := List.mem_filter.mp hp3
    exact ⟨A.2, fun hc => absurd hc h3, fun hne => absurd hne h1⟩

/-- Claim C1: every exported data-layer function of `group-permissions.ts`
resolves to a `Result` and never throws: it fails exactly when its own
Supabase call reports an in-band error or an exception is raised (for
`getGroups`, also when a member-count promise rejects), and otherwise
succeeds carrying the data, with a null query result replaced by the empty
list in the list-returning functions. -/
theorem dataLayer_result_wrapper :
    (∀ (main : DbResp (List GroupRow)) (counts : String → DbResp Nat),
      (main.isBad = true → (getGroups main counts).isFailure = true)
      ∧ (main = .ok none → getGroups main counts = .success [])
      ∧ (∀ rows, main = .ok (some rows) →
          ((getGroups main counts).isFailure = true ↔
            rows.any (fun g => decide (counts g.id = DbResp.exn)) = true))
      ∧ (∀ rows, main = .ok (some rows) →
          rows.any (fun g => decide (counts g.id = DbResp.exn)) = false →
          getGroups main counts =
            .success (rows.map (groupWithCount counts))))
    ∧ (∀ nm desc (insert : GroupInsert → DbResp GroupRow),
      ((createGroup nm desc insert).isFailure = true ↔
        (insert (groupInsertReq nm desc)).isBad = true)
      ∧ ∀ d, insert (groupInsertReq nm desc) = .ok d →
          createGroup nm desc insert = .success d)
    ∧ (∀ gid patch (update : String × GroupPatch → DbResp GroupRow),
      ((updateGroup gid patch update).isFailure = true ↔
        (update (gid, patch)).isBad = true)
      ∧ ∀ d, update (gid, patch) = .ok d →
          updateGroup gid patch update = .success d)
    ∧ (∀ gid (del : String → DbResp Unit),
      ((deleteGroup gid del).isFailure = true ↔ (del gid).isBad = true)
      ∧ ∀ d, del gid = .ok d → deleteGroup gid del = .success ())
    ∧ (∀ gid (query : String → DbResp (List GroupMember)),
      ((getGroupMembers gid query).isFailure = true ↔
        (query gid).isBad = true)
      ∧ (query gid = .ok none → getGroupMembers gid query = .success [])
      ∧ ∀ rows, query gid = .ok (some rows) →
          getGroupMembers gid query = .success rows)
    ∧ (∀ gid uid (insert : String × String → DbResp GroupMember),
      ((addGroupMember gid uid insert).isFailure = true ↔
        (insert (gid, uid)).isBad = true)
      ∧ ∀ d, insert (gid, uid) = .ok d →
          addGroupMember gid uid insert = .success d)
    ∧ (∀ gid uid (del : String × String → DbResp Unit),
      ((removeGroupMember gid uid del).isFailure = true ↔
        (del (gid, uid)).isBad = true)
      ∧ ∀ d, del (gid, uid) = .ok d →
          removeGroupMember gid uid del = .success ())
    ∧ (∀ gid (query : String → DbResp (List GroupAppPermission)),
      ((getGroupAppPermissions gid query).isFailure = true ↔
        (query gid).isBad = true)
      ∧ (query gid = .ok none →
          getGroupAppPermissions gid query = .success [])
      ∧ ∀ rows, query gid = .ok (some rows) →
          getGroupAppPermissions gid query = .success rows)
    ∧ (∀ gid sid (en : Bool) q
        (upsert : PermUpsertRow → DbResp GroupAppPermission)
        (del : String × String → DbResp Unit) (now : String),
      ((setGroupAppPermission gid sid en q upsert del now).isFailure = true ↔
        (if en then (upsert (permUpsertReq gid sid q)).isBad = true
         else (del (gid, sid)).isBad = true)))
    ∧ (∀ gid sid (del : String × String → DbResp Unit),
      ((removeGroupAppPermission gid sid del).isFailure = true ↔
        (del (gid, sid)).isBad = true)
      ∧ ∀ d, del (gid, sid) = .ok d →
          removeGroupAppPermission gid sid del = .success ())
    ∧ (∀ sid (del : String → DbResp Unit),
      ((removeAllGroupAppPermissions sid del).isFailure = true ↔
        (del sid).isBad = true)
      ∧ ∀ d, del sid = .ok d →
          removeAllGroupAppPermissions sid del = .success ())
    ∧ (∀ uid (rpc : RpcReq → DbResp (List UserAccessibleApp)),
      ((getUserAccessibleApps uid rpc).isFailure = true ↔
        (rpc (accessibleAppsReq uid)).isBad = true)
      ∧ (rpc (accessibleAppsReq uid) = .ok none →
          getUserAccessibleApps uid rpc = .success [])
      ∧ ∀ rows, rpc (accessibleAppsReq uid) = .ok (some rows) →
          getUserAccessibleApps uid rpc = .success rows)
    ∧ (∀ uid sid (rpc : RpcReq → DbResp (ArrOrOne AppPermissionCheck)),
      ((checkUserAppPermission uid sid rpc).isFailure = true ↔
        (rpc (checkPermissionReq uid sid)).isBad = true))
    ∧ (∀ uid sid (n : Int)
        (rpc : RpcReq → DbResp (ArrOrOne IncrementResult)),
      ((incrementAppUsage uid sid n rpc).isFailure = true ↔
        (rpc (incrementUsageReq uid sid n)).isBad = true)
      ∧ ∀ d, rpc (incrementUsageReq uid sid n) = .ok d →
          incrementAppUsage uid sid n rpc = .success (firstRow d))
    ∧ (∀ term excl profiles (exec : DbResp Unit),
      ((searchUsersForGroup term excl profiles exec).isFailure = true ↔
        exec.isBad = true)
      ∧ (exec = .ok none → searchUsersForGroup term excl profiles exec =
          .success [])
      ∧ (exec = .ok (some ()) → searchUsersForGroup term excl profiles exec =
          .success (searchUsersQuery profiles term excl))) := by
  refine ⟨?_, ?_, ?_, ?_, ?_, ?_, ?_, ?_, ?_, ?_, ?_, ?_, ?_, ?_, ?_⟩
  · intro main counts
    refine ⟨?_, ?_, ?_, ?_⟩
    · intro hb
      cases main with
      | err m => simp [getGroups, Result.isFailure]
      | exn => simp [getGroups, Result.isFailure]
      | ok d => simp [DbResp.isBad] at hb
    · intro h
      subst h
      simp [getGroups]
    · intro rows h
      subst h
      by_cases hx : rows.any (fun g => decide (counts g.id = DbResp.exn)) =
          true
      · simp [getGroups, hx, Result.isFailure]
      · simp [getGroups, Bool.eq_false_iff.mpr hx, Result.isFailure, hx]
    · intro rows h hfalse
      subst h
      simp [getGroups, hfalse]
  · intro nm desc insert
    refine ⟨?_, ?_⟩
    · cases hv : insert (groupInsertReq nm desc) <;>
        simp [createGroup, hv, DbResp.isBad, Result.isFailure]
    · intro d h
      simp [createGroup, h]
  · intro gid patch update
    refine ⟨?_, ?_⟩
    · cases hv : update (gid, patch) <;>
        simp [updateGroup, hv, DbResp.isBad, Result.isFailure]
    · intro d h
      simp [updateGroup, h]
  · intro gid del
    refine ⟨?_, ?_⟩
    · cases hv : del gid <;>
        simp [deleteGroup, hv, DbResp.isBad, Result.isFailure]
    · intro d h
      simp [deleteGroup, h]
  · intro gid query
    refine ⟨?_, ?_, ?_⟩
    · cases hv : query gid <;>
        simp [getGroupMembers, hv, DbResp.isBad, Result.isFailure]
    · intro h
      simp [getGroupMembers, h]
    · intro rows h
      simp [getGroupMembers, h]
  · intro gid uid insert
    refine ⟨?_, ?_⟩
    · cases hv : insert (gid, uid) <;>
        simp [addGroupMember, hv, DbResp.isBad, Result.isFailure]
    · intro d h
      simp [addGroupMember, h]
  · intro gid uid del
    refine ⟨?_, ?_⟩
    · cases hv : del (gid, uid) <;>
        simp [removeGroupMember, hv, DbResp.isBad, Result.isFailure]
    · intro d h
      simp [removeGroupMember, h]
  · intro gid query
    refine ⟨?_, ?_, ?_⟩
    · cases hv : query gid <;>
        simp [getGroupAppPermissions, hv, DbResp.isBad, Result.isFailure]
    · intro h
      simp [getGroupAppPermissions, h]
    · intro rows h
      simp [getGroupAppPermissions, h]
  · intro gid sid en q upsert del now
    cases en
    · cases hv : del (gid, sid) <;>
        simp [setGroupAppPermission, hv, DbResp.isBad, Result.isFailure]
    · cases hv : upsert (permUpsertReq gid sid q) <;>
        simp [setGroupAppPermission, hv, DbResp.isBad, Result.isFailure]
  · intro gid sid del
    refine ⟨?_, ?_⟩
    · cases hv : del (gid, sid) <;>
        simp [removeGroupAppPermission, hv, DbResp.isBad, Result.isFailure]
    · intro d h
      simp [removeGroupAppPermission, h]
  · intro sid del
    refine ⟨?_, ?_⟩
    · cases hv : del sid <;>
        simp [removeAllGroupAppPermissions, hv, DbResp.isBad,
          Result.isFailure]
    · intro d h
      simp [removeAllGroupAppPermissions, h]
  · intro uid rpc
    refine ⟨?_, ?_, ?_⟩
    · cases hv : rpc (accessibleAppsReq uid) <;>
        simp [getUserAccessibleApps, hv, DbResp.isBad, Result.isFailure]
    · intro h
      simp [getUserAccessibleApps, h]
    · intro rows h
      simp [getUserAccessibleApps, h]
  · intro uid sid rpc
    cases hv : rpc (checkPermissionReq uid sid) with
    | err m => simp [checkUserAppPermission, hv, DbResp.isBad,
        Result.isFailure]
    | exn => simp [checkUserAppPermission, hv, DbResp.isBad, Result.isFailure]
    | ok d =>
      cases hfr : firstRow d <;>
        simp [checkUserAppPermission, hv, hfr, DbResp.isBad, Result.isFailure]
  · intro uid sid n rpc
    refine ⟨?_, ?_⟩
    · cases hv : rpc (incrementUsageReq uid sid n) <;>
        simp [incrementAppUsage, hv, DbResp.isBad, Result.isFailure]
    · intro d h
      simp [incrementAppUsage, h]
  · intro term excl profiles exec
    refine ⟨?_, ?_, ?_⟩
    · cases exec with
      | err m => simp [searchUsersForGroup, DbResp.isBad, Result.isFailure]
      | exn => simp [searchUsersForGroup, DbResp.isBad, Result.isFailure]
      | ok d =>
        cases d <;>
          simp [searchUsersForGroup, DbResp.isBad, Result.isFailure]
    · intro h
      subst h
      simp [searchUsersForGroup]
    · intro h
      subst h
      simp [searchUsersForGroup]

/-- Claim C1, witness: a failing and a null-data call of `getGroupMembers`
resolve to a failure and to a success with the empty list. -/
theorem dataLayer_result_wrapper_witness :
    (getGroupMembers "g" (fun _ => DbResp.err "boom")).isFailure = true
      ∧ getGroupMembers "g" (fun _ => DbResp.ok none) = .success [] :=
  ⟨((dataLayer_result_wrapper.2.2.2.2.1 "g"
      (fun _ => DbResp.err "boom")).1).mpr rfl,
   (dataLayer_result_wrapper.2.2.2.2.1 "g"
      (fun _ => DbResp.ok none)).2.1 rfl⟩

/-- Claim C10: every successful `searchUsersForGroup` result has at most 20
users, each returned user has status `active`, none of the returned ids is
in `excludeUserIds`, and when the trimmed search term is non-empty every
returned user matches the term in username, full name, or email. -/
theorem searchUsersForGroup_filtered
    (searchTerm : String) (excl : List String) (profiles : List ProfileRow)
    (exec : DbResp Unit) (res : List SearchableUser)
    (h : searchUsersForGroup searchTerm excl profiles exec = .success res) :
    res.length ≤ 20 ∧
      ∀ u ∈ res, u.status = "active" ∧ u.id ∉ excl ∧
        (jsTrim searchTerm ≠ "" → searchMatchesUser searchTerm u = true) := by
  cases exec with
  | err m => simp [searchUsersForGroup] at h
  | exn => simp [searchUsersForGroup] at h
  | ok d =>
    cases d with
    | none =>
      simp only [searchUsersForGroup] at h
      injection h with h2
      subst h2
      simp
    | some u0 =>
      simp only [searchUsersForGroup] at h
      injection h with h2
      subst h2
      constructor
      · simp only [searchUsersQuery, List.length_map, List.length_take]
        exact Nat.min_le_left _ _
      · intro u hu
        obtain ⟨p, hpu, hstat, hexcl, hmatch⟩ := mem_searchUsersQuery hu
        subst hpu
        refine ⟨eq_of_beq hstat, ?_, hmatch⟩
        intro hmem
        by_cases he : excl.length > 0
        · have hc := hexcl he
          simp at hc
          exact hc hmem
        · have hnil : excl = [] := List.eq_nil_of_length_eq_zero (by omega)
          subst hnil
          exact absurd hmem (List.not_mem_nil _)

/-- Claim C10, witness: a concrete profiles table with an inactive user, an
excluded user, and a matching active user. -/
theorem searchUsersForGroup_filtered_witness :
    ([ProfileRow.toSearchable
        ⟨"a1", some "Alice", none, none, none, "user", "active", "2"⟩].length
        ≤ 20
      ∧ ∀ u ∈ [ProfileRow.toSearchable
          ⟨"a1", some "Alice", none, none, none, "user", "active", "2"⟩],
        u.status = "active" ∧ u.id ∉ ["x1"]
          ∧ (jsTrim "al" ≠ "" → searchMatchesUser "al" u = true)) :=
  searchUsersForGroup_filtered "al" ["x1"]
    [⟨"a1", some "Alice", none, none, none, "user", "active", "2"⟩,
     ⟨"a2", some "alfred", none, none, none, "user", "inactive", "3"⟩,
     ⟨"x1", some "Alina", none, none, none, "user", "active", "1"⟩]
    (.ok (some ())) _ (by decide)

/-- Claim C9: `setGroupAppPermission` is asymmetric.  Enabling upserts a
permission row whose `usage_quota` is the falsy-coerced quota — in
particular a quota of 0 is stored as null — and the result depends only on
the upsert response at that row; disabling deletes the (group, service
instance) row and, when the delete succeeds, always returns a success whose
value is a synthetic record with empty id, `is_enabled = false`, null
`usage_quota` and `used_count = 0`, independent of the upsert backend (the
previously stored row is never read). -/
theorem setGroupAppPermission_asymmetric
    (gid sid : String) (q : Option Int)
    (upsert upsert' : PermUpsertRow → DbResp GroupAppPermission)
    (del : String × String → DbResp Unit) (now : String) :
    ((permUpsertReq gid sid (some 0)).usage_quota = none
      ∧ (permUpsertReq gid sid none).usage_quota = none
      ∧ ∀ z : Int, z ≠ 0 → (permUpsertReq gid sid (some z)).usage_quota =
          some z)
    ∧ (upsert (permUpsertReq gid sid q) = upsert' (permUpsertReq gid sid q) →
        setGroupAppPermission gid sid true q upsert del now =
          setGroupAppPermission gid sid true q upsert' del now)
    ∧ (∀ p, upsert (permUpsertReq gid sid q) = .ok p →
        setGroupAppPermission gid sid true q upsert del now = .success p)
    ∧ (∀ d, del (gid, sid) = .ok d →
        setGroupAppPermission gid sid false q upsert del now =
          .success (some (disabledPermRecord gid sid now))) := by
  refine ⟨⟨rfl, rfl, ?_⟩, ?_, ?_, ?_⟩
  · intro z hz
    simp [permUpsertReq, coerceQuota, hz]
  · intro h
    simp only [setGroupAppPermission, if_true, h]
  · intro p h
    simp only [setGroupAppPermission, if_true, h]
  · intro d h
    simp [setGroupAppPermission, h]

/-- Claim C9, witness: enabling with a quota of 0 upserts a null quota, and
disabling fabricates the synthetic disabled record. -/
theorem setGroupAppPermission_asymmetric_witness :
    setGroupAppPermission "g1" "s1" false (some (7 : Int))
        (fun _ => DbResp.exn) (fun _ => .ok none) "2024-01-01" =
      .success (some (disabledPermRecord "g1" "s1" "2024-01-01")) :=
  (setGroupAppPermission_asymmetric "g1" "s1" (some 7) (fun _ => DbResp.exn)
      (fun _ => DbResp.exn) (fun _ => .ok none) "2024-01-01").2.2.2
    none rfl

/-- Claim C4, counterexample: on the route `/chat/newest` the path id
`newest` is not `new` and does not start with `temp-`, yet the effect leaves
all three ids untouched (the guard excludes every path containing
`/chat/new`), instead of setting the Dify id to `newest` and resolving the
lookup as the claim states. -/
theorem routeEffect_counterexample :
    routeEffect "/chat/newest" (fun _ => ConvLookup.notFound)
        ⟨some "prev", some "db0", some "app0"⟩ =
      ⟨some "prev", some "db0", some "app0"⟩
    ∧ (some "prev" : Option String) ≠ some "newest" := by
  constructor
  · decide
  · decide

/-- Claim C4 (amended): for routes `/chat/{x}` where the path contains
neither `/chat/new` nor `/chat/temp-` (for a single-segment `x`: `x` starts
with neither `new` nor `temp-`), the hook sets the Dify conversation id to
`x` and resolves the database UUID and original `app_id` by external-id
lookup, setting both to null when the lookup finds nothing or fails; for
`/chat/new` and `/chat/temp-…` routes all three ids are reset to null. -/
theorem routeEffect_resolution
    (x : String) (lookup : String → ConvLookup) (ids : ConvIds)
    (h1 : strIncludes ("/chat/" ++ x) "/chat/new" = false)
    (h2 : strIncludes ("/chat/" ++ x) "/chat/temp-" = false) :
    (∀ cid app, lookup x = .found cid app →
      routeEffect ("/chat/" ++ x) lookup ids =
        ⟨some x, some cid, if strFalsy app then none else app⟩)
    ∧ (lookup x = .notFound →
        routeEffect ("/chat/" ++ x) lookup ids = ⟨some x, none, none⟩)
    ∧ (lookup x = .failed →
        routeEffect ("/chat/" ++ x) lookup ids = ⟨some x, none, none⟩)
    ∧ routeEffect "/chat/new" lookup ids = ⟨none, none, none⟩
    ∧ (∀ y, routeEffect ("/chat/temp-" ++ y) lookup ids =
        ⟨none, none, none⟩) := by
  have hpre : ("/chat/".toList.isPrefixOf ("/chat/" ++ x).toList) = true := by
    rw [List.isPrefixOf_iff_prefix]
    show "/chat/".data <+: ("/chat/" ++ x).data
    rw [String.data_append]
    exact List.prefix_append _ _
  have hcond : ("/chat/".toList.isPrefixOf ("/chat/" ++ x).toList)
      ∧ ¬ strIncludes ("/chat/" ++ x) "/chat/new" = true
      ∧ ¬ strIncludes ("/chat/" ++ x) "/chat/temp-" = true := by
    refine ⟨hpre, ?_, ?_⟩ <;> simp [h1, h2]
  have hpre2 : "/chat/".data.isPrefixOf ("/chat/" ++ x).data = true := hpre
  have hpath : (⟨replaceFirst ("/chat/" ++ x).toList "/chat/".toList⟩ :
      String) = x := by
    show (⟨replaceFirst ("/chat/" ++ x).data "/chat/".data⟩ : String) = x
    rw [replaceFirst_dropHead _ _ hpre2, String.data_append, List.drop_left]
  refine ⟨?_, ?_, ?_, ?_, ?_⟩
  · intro cid app hl
    rw [routeEffect, if_pos hcond, hpath]
    simp only [hl]
  · intro hl
    rw [routeEffect, if_pos hcond, hpath]
    simp only [hl]
  · intro hl
    rw [routeEffect, if_pos hcond, hpath]
    simp only [hl]
  · rw [routeEffect, if_neg (by decide), if_pos (Or.inl rfl)]
  · intro y
    have htemp : strIncludes ("/chat/temp-" ++ y) "/chat/temp-" = true := by
      simp only [strIncludes, decide_eq_true_eq]
      show "/chat/temp-".data <:+: ("/chat/temp-" ++ y).data
      rw [String.data_append]
      exact (List.prefix_append _ _).isInfix
    rw [routeEffect, if_neg ?hn, if_pos (Or.inr htemp)]
    case hn =>
      intro hc
      rw [htemp] at hc
      exact hc.2.2 rfl

/-- Claim C4 (amended), witness: concrete runs of the three lookup outcomes
and of the reset routes. -/
theorem routeEffect_resolution_witness :
    routeEffect "/chat/abc123" (fun _ => ConvLookup.found "db7" (some "app9"))
        ⟨none, none, none⟩ = ⟨some "abc123", some "db7", some "app9"⟩
    ∧ routeEffect "/chat/new" (fun _ => ConvLookup.notFound)
        ⟨some "z", some "z", some "z"⟩ = ⟨none, none, none⟩ := by
  have h := routeEffect_resolution "abc123"
    (fun _ => ConvLookup.found "db7" (some "app9")) ⟨none, none, none⟩
    (by decide) (by decide)
  exact ⟨h.1 "db7" (some "app9") rfl,
    (routeEffect_resolution "abc123" (fun _ => ConvLookup.notFound)
      ⟨some "z", some "z", some "z"⟩ (by decide) (by decide)).2.2.2.1⟩

/-! ### Store lemmas shared by the orchestration proofs -/

theorem findMsg_mapMsg (id : String) (f : ChatMsg → ChatMsg) (s : ChatState)
    (hf : ∀ m, (f m).id = m.id) :
    findMsg (mapMsg id f s) id = (findMsg s id).map f := by
  show List.find? _ (s.messages.map _) = (List.find? _ s.messages).map f
  induction s.messages with
  | nil => rfl
  | cons m ms ih =>
    simp only [List.map_cons, List.find?_cons]
    by_cases hm : (m.id == id) = true
    · rw [if_pos hm]
      have h2 : ((f m).id == id) = true := by rw [hf m]; exact hm
      simp [h2, hm]
    · have hm2 : (m.id == id) = false := by simpa using hm
      rw [if_neg hm]
      simp only [hm2]
      exact ih

theorem findMsg_updateMessage (id : String) (p : MsgPatch) (s : ChatState) :
    findMsg (updateMessage id p s) id = (findMsg s id).map (fun m =>
      { m with
        metadata := p.metadata.getD m.metadata,
        wasManuallyStopped := p.wasManuallyStopped.getD m.wasManuallyStopped,
        persistenceStatus := match p.persistenceStatus with
          | none => m.persistenceStatus
          | some st => some st,
        token_count := p.token_count.getD m.token_count }) :=
  findMsg_mapMsg id _ s (fun _ => rfl)

theorem findMsg_finalize (id : String) (s : ChatState) :
    findMsg (finalizeStreamingMessage id s) id =
      (findMsg s id).map (fun m => { m with isStreaming := false }) := by
  unfold finalizeStreamingMessage
  by_cases h : ((mapMsg id (fun m => { m with isStreaming := false })
      s).streamingMessageId == some id) = true
  · rw [if_pos h]
    exact findMsg_mapMsg id _ s (fun _ => rfl)
  · rw [if_neg (by simpa using h)]
    exact findMsg_mapMsg id _ s (fun _ => rfl)

theorem findMsg_setWaiting (b : Bool) (s : ChatState) (id : String) :
    findMsg (setIsWaitingForResponse b s) id = findMsg s id := rfl

theorem findMsg_setTask (t : Option String) (s : ChatState) (id : String) :
    findMsg (setCurrentTaskId t s) id = findMsg s id := rfl

theorem findMsg_append (id chunk : String) (s : ChatState) :
    findMsg (appendMessageChunk id chunk s) id =
      (findMsg s id).map (fun m => { m with text := m.text ++ chunk }) :=
  findMsg_mapMsg id _ s (fun _ => rfl)

theorem findMsg_mark (id : String) (s : ChatState) :
    findMsg (markAsManuallyStopped id s) id =
      (findMsg s id).map (fun m =>
        { m with isStreaming := false, wasManuallyStopped := true }) := by
  unfold markAsManuallyStopped
  by_cases h : ((mapMsg id (fun m =>
      { m with isStreaming := false, wasManuallyStopped := true })
      s).streamingMessageId == some id) = true
  · rw [if_pos h]
    exact findMsg_mapMsg id _ s (fun _ => rfl)
  · rw [if_neg (by simpa using h)]
    exact findMsg_mapMsg id _ s (fun _ => rfl)

/-- The id recorded by `findMsg` matches the searched id. -/
theorem findMsg_id {s : ChatState} {id : String} {m : ChatMsg}
    (h : findMsg s id = some m) : m.id = id := by
  have := List.find?_some h
  simpa using this

/-- Claim C3: the self-healing check is scheduled every 10 seconds, and when
a run finds the same streaming message with the same text recorded more than
30000 ms ago, it finalizes the message (clears its streaming flag), sets
`isWaitingForResponse` to false, clears the current task id, resets the
check ref and, when a database conversation id is known and the message is
unsaved, marks it `pending` and requests its save. -/
theorem zombie_stream_selfheal
    (s : ChatState) (db : Option String) (now : Nat) (mid : String)
    (msg : ChatMsg) (t : Nat)
    (hsid : s.streamingMessageId = some mid)
    (hfind : findMsg s mid = some msg)
    (hstream : msg.isStreaming = true)
    (hstale : now - t > 30000) :
    streamingCheckIntervalMs = 10000
    ∧ zombieThresholdMs = 30000
    ∧ ((findMsg (checkStreamingState s (some ⟨mid, msg.text, t⟩) db now).1
          mid).map ChatMsg.isStreaming = some false
      ∧ (checkStreamingState s (some ⟨mid, msg.text, t⟩) db
          now).1.isWaitingForResponse = false
      ∧ (checkStreamingState s (some ⟨mid, msg.text, t⟩) db
          now).1.currentTaskId = none
      ∧ (checkStreamingState s (some ⟨mid, msg.text, t⟩) db now).2.1 = none
      ∧ (∀ c, db = some c → msg.persistenceStatus ≠ some .saved →
          msg.db_id = none →
          (findMsg (checkStreamingState s (some ⟨mid, msg.text, t⟩) db
              now).1 mid).map ChatMsg.persistenceStatus =
            some (some .pending)
          ∧ (checkStreamingState s (some ⟨mid, msg.text, t⟩) db now).2.2 =
            [.saveMsg mid c])) := by
  have hid : msg.id = mid := findMsg_id hfind
  have hfin : findMsg (setCurrentTaskId none (setIsWaitingForResponse false
      (finalizeStreamingMessage mid s))) mid =
      some { msg with isStreaming := false } := by
    show findMsg (finalizeStreamingMessage mid s) mid =
      some { msg with isStreaming := false }
    rw [findMsg_finalize, hfind]
    rfl
  refine ⟨rfl, rfl, ?_⟩
  unfold checkStreamingState
  simp only [hsid, hfind, hstream, hid, eq_self_iff_true, and_self, if_true]
  rw [if_pos (show now - t > zombieThresholdMs from hstale)]
  cases db with
  | none =>
    dsimp only
    refine ⟨?_, rfl, rfl, rfl, ?_⟩
    · rw [hfin]
      rfl
    · intro c hc
      cases hc
  | some c0 =>
    dsimp only
    by_cases hsv : msg.persistenceStatus ≠ some .saved ∧ msg.db_id = none
    · rw [if_pos hsv]
      refine ⟨?_, rfl, rfl, rfl, ?_⟩
      · rw [findMsg_updateMessage, hfin]
        rfl
      · intro c hc h1 h2
        cases hc
        refine ⟨?_, rfl⟩
        rw [findMsg_updateMessage, hfin]
        rfl
    · rw [if_neg hsv]
      refine ⟨?_, rfl, rfl, rfl, ?_⟩
      · rw [hfin]
        rfl
      · intro c hc h1 h2
        cases hc
        exact absurd ⟨h1, h2⟩ hsv

/-- A concrete zombie streaming message for the self-healing witness. -/
def zombieMsg : ChatMsg :=
  { id := "m1", text := "hello", isUser := false, isStreaming := true,
    wasManuallyStopped := false, persistenceStatus := none, db_id := none,
    metadata := { stopped_manually := false, stopped_at := none },
    token_count := none }

/-- Claim C3, witness: a run over a concrete stale streaming message
finalizes it and requests its save. -/
theorem zombie_stream_selfheal_witness :
    (findMsg (checkStreamingState
        ⟨[zombieMsg], some "m1", none, some "task", true⟩
        (some ⟨"m1", "hello", 0⟩) (some "db1") 30001).1 "m1").map
      ChatMsg.isStreaming = some false
    ∧ (checkStreamingState ⟨[zombieMsg], some "m1", none, some "task", true⟩
        (some ⟨"m1", "hello", 0⟩) (some "db1") 30001).2.2 =
      [.saveMsg "m1" "db1"] := by
  have h := zombie_stream_selfheal
    ⟨[zombieMsg], some "m1", none, some "task", true⟩ (some "db1") 30001
    "m1" zombieMsg 0 rfl (by decide) rfl (by decide)
  exact ⟨h.2.2.1,
    (h.2.2.2.2.2.2 "db1" rfl (by decide) rfl).2⟩

/-- Claim C7, counterexample: `handleStopProcessing` invoked while `m1` is
streaming (authenticated user, message has content, no current task id)
takes the self-healing repair path: the message is finalized but NOT marked
as manually stopped and no `stopped_manually` metadata is written,
contradicting the claim that every streaming-time invocation marks the
message as manually stopped. -/
theorem handleStop_counterexample :
    zombieMsg.isStreaming = true
    ∧ (findMsg (handleStopProcessing
        ⟨[zombieMsg], some "m1", none, none, true⟩ ⟨true, "", false⟩
        ⟨some "u", some "app", true, some "db1", some "dify1", false, true,
         "T"⟩).1 "m1").map ChatMsg.wasManuallyStopped = some false
    ∧ (findMsg (handleStopProcessing
        ⟨[zombieMsg], some "m1", none, none, true⟩ ⟨true, "", false⟩
        ⟨some "u", some "app", true, some "db1", some "dify1", false, true,
         "T"⟩).1 "m1").map (fun m => m.metadata.stopped_manually) =
      some false := by
  refine ⟨rfl, ?_, ?_⟩ <;> decide

/-- Claim C7 (amended): for every invocation of `handleStopProcessing` while
a message is streaming, by an authenticated user, outside the self-healing
repair case (message already has content but no current task id): the
pending chunk buffer is flushed into the message and cleared, the message is
marked manually stopped with `stopped_manually` metadata, a stop timestamp
and status `pending`, and — regardless of whether the remote Dify stop call
succeeds — `isWaitingForResponse` and the submitting flag end up false. -/
theorem handleStop_flush_and_reset
    (s : ChatState) (r : HookRefs) (inp : StopInput) (sid : String)
    (msg : ChatMsg)
    (hsid : s.streamingMessageId = some sid)
    (hne : sid ≠ "")
    (hfind : findMsg s sid = some msg)
    (hstream : msg.isStreaming = true)
    (hauth : strFalsy inp.currentUserId = false)
    (hnz : ¬ (jsTrim msg.text ≠ "" ∧ strFalsy s.currentTaskId = true)) :
    (findMsg (handleStopProcessing s r inp).1 sid).map ChatMsg.text =
      some (msg.text ++ r.chunkBuffer)
    ∧ (handleStopProcessing s r inp).2.1.chunkBuffer = ""
    ∧ (findMsg (handleStopProcessing s r inp).1 sid).map
        ChatMsg.wasManuallyStopped = some true
    ∧ (findMsg (handleStopProcessing s r inp).1 sid).map ChatMsg.metadata =
      some { stopped_manually := true, stopped_at := some inp.now }
    ∧ (findMsg (handleStopProcessing s r inp).1 sid).map
        ChatMsg.persistenceStatus = some (some .pending)
    ∧ (handleStopProcessing s r inp).1.isWaitingForResponse = false
    ∧ (handleStopProcessing s r inp).2.1.isSubmitting = false := by
  have hz : stopZombieCheck s = none := by
    unfold stopZombieCheck
    rw [hsid]
    simp only [hfind]
    rw [if_neg (fun hc => hnz ⟨hc.2.1, hc.2.2⟩)]
  have hne2 : strFalsy (some sid) = false := by
    simp [strFalsy, hne]
  have hm2 : findMsg (markAsManuallyStopped sid
      (flushChunkBuffer (some sid) s { r with timerActive := false }).1) sid =
      some { msg with
             text := msg.text ++ r.chunkBuffer,
             isStreaming := false,
             wasManuallyStopped := true } := by
    rw [findMsg_mark]
    by_cases hbuf : r.chunkBuffer = ""
    · rw [flushChunkBuffer, if_neg (fun hc => hc.2 hbuf)]
      rw [hfind]
      simp [hbuf, String.append_empty]
    · rw [flushChunkBuffer, if_pos ⟨by simp [hne2], hbuf⟩]
      dsimp only [Option.getD]
      rw [findMsg_append, hfind]
      rfl
  have hbufres : (flushChunkBuffer (some sid) s
      { r with timerActive := false }).2.chunkBuffer = "" := by
    by_cases hbuf : r.chunkBuffer = ""
    · rw [flushChunkBuffer, if_neg (fun hc => hc.2 hbuf)]
      exact hbuf
    · rw [flushChunkBuffer, if_pos ⟨by simp [hne2], hbuf⟩]
  unfold handleStopProcessing
  rw [hz]
  dsimp only
  rw [if_neg (by rw [hauth]; exact Bool.false_ne_true)]
  rw [hsid]
  dsimp only
  have hif : findMsg (if ¬ strFalsy s.currentTaskId = true
      ∧ ((if ¬ strFalsy inp.currentAppId = true
            ∧ inp.appInstanceAvailable = true
          then inp.currentAppId else none) = none
        ∨ inp.remoteStopOk = true)
      then setCurrentTaskId none (markAsManuallyStopped sid
        (flushChunkBuffer (some sid) s { r with timerActive := false }).1)
      else markAsManuallyStopped sid
        (flushChunkBuffer (some sid) s { r with timerActive := false }).1)
      sid =
      some { msg with
             text := msg.text ++ r.chunkBuffer,
             isStreaming := false,
             wasManuallyStopped := true } := by
    split <;> split <;>
      first
      | (rw [findMsg_setTask]; exact hm2)
      | exact hm2
  refine ⟨?_, hbufres, ?_, ?_, ?_, rfl, rfl⟩ <;>
    · rw [findMsg_setWaiting, hif]
      dsimp only
      rw [findMsg_updateMessage, hif]
      rfl

/-- A concrete streaming message for the manual-stop witness. -/
def stopMsgW : ChatMsg :=
  { id := "m2", text := "hi", isUser := false, isStreaming := true,
    wasManuallyStopped := false, persistenceStatus := none, db_id := none,
    metadata := { stopped_manually := false, stopped_at := none },
    token_count := none }

/-- Chat state for the manual-stop witness: `m2` streaming with a task id. -/
def stopStateW : ChatState :=
  { messages := [stopMsgW], streamingMessageId := some "m2",
    currentConversationId := none, currentTaskId := some "t1",
    isWaitingForResponse := true }

/-- Inputs for the manual-stop witness, varying the remote stop outcome. -/
def stopInpW (remoteStopOk : Bool) : StopInput :=
  { currentUserId := some "u", currentAppId := some "app",
    appInstanceAvailable := true, dbConversationUUID := some "db",
    difyConversationId := some "dify", urlIndicatesNew := false,
    remoteStopOk := remoteStopOk, now := "TS" }

/-- Claim C7 (amended), witness: a concrete stop with a pending buffer, for
both remote-stop outcomes. -/
theorem handleStop_flush_and_reset_witness :
    ((findMsg (handleStopProcessing stopStateW ⟨true, "buf", true⟩
          (stopInpW true)).1 "m2").map ChatMsg.text = some ("hi" ++ "buf")
      ∧ (handleStopProcessing stopStateW ⟨true, "buf", true⟩
          (stopInpW true)).2.1.isSubmitting = false)
    ∧ ((findMsg (handleStopProcessing stopStateW ⟨true, "buf", true⟩
          (stopInpW false)).1 "m2").map ChatMsg.wasManuallyStopped =
        some true
      ∧ (handleStopProcessing stopStateW ⟨true, "buf", true⟩
          (stopInpW false)).1.isWaitingForResponse = false) := by
  have h1 := handleStop_flush_and_reset stopStateW ⟨true, "buf", true⟩
    (stopInpW true) "m2" stopMsgW rfl (by decide) (by decide) rfl rfl
    (by decide)
  have h2 := handleStop_flush_and_reset stopStateW ⟨true, "buf", true⟩
    (stopInpW false) "m2" stopMsgW rfl (by decide) (by decide) rfl rfl
    (by decide)
  exact ⟨⟨h1.1, h1.2.2.2.2.2.2⟩, ⟨h2.2.2.1, h2.2.2.2.2.2.1⟩⟩

/-- Claim C8: for every call to `handleSubmit` made while a previous
submission is in flight (the submitting ref is set) or while the chat store
reports processing, the call returns immediately and changes nothing: the
store, the refs, the conversation and task ids are untouched and no stream
is started. -/
theorem handleSubmit_reentrancy_guard
    (msg : String) (env : SubmitEnv) (s : ChatState) (r : HookRefs)
    (h : r.isSubmitting = true ∨ selectIsProcessing s = true) :
    handleSubmit msg env s r = (s, r, []) := by
  unfold handleSubmit
  rcases h with h | h
  · rw [if_pos h]
  · by_cases h1 : r.isSubmitting = true
    · rw [if_pos h1]
    · rw [if_neg h1, if_pos h]

/-- Claim C8, witness: a concrete blocked submission (streaming in progress)
returns the state unchanged with no actions. -/
theorem handleSubmit_reentrancy_guard_witness :
    handleSubmit "hello"
        ⟨some "u", .ok "app", "u1", "a1", [], 0⟩
        ⟨[stopMsgW], some "m2", none, none, false⟩
        ⟨false, "", false⟩ =
      (⟨[stopMsgW], some "m2", none, none, false⟩, ⟨false, "", false⟩, []) :=
  handleSubmit_reentrancy_guard "hello"
    ⟨some "u", .ok "app", "u1", "a1", [], 0⟩
    ⟨[stopMsgW], some "m2", none, none, false⟩
    ⟨false, "", false⟩ (Or.inr (by decide))

/-- Claim C5: the persistence status is drawn exactly from
`{pending, saved, error}`; every user message is created with status
`pending`; the assistant-message save site sets the status to `pending`
immediately before the save attempt and to `error` when the attempt fails.
-/
theorem persistence_status_lifecycle :
    (∀ st : PersistStatus, st = .pending ∨ st = .saved ∨ st = .error)
    ∧ (∀ id text, (newUserMessage id text).persistenceStatus =
        some .pending)
    ∧ (∀ (aid dbc : String) (fails : Bool) (s : ChatState) (m : ChatMsg),
        findMsg s aid = some m → m.db_id = none →
        m.persistenceStatus ≠ some .saved → jsTrim m.text ≠ "" →
        ((saveAssistantMessageAfterStream aid dbc fails s).2 =
            [.saveMsg aid dbc])
        ∧ (fails = false →
            (findMsg (saveAssistantMessageAfterStream aid dbc fails s).1
              aid).map ChatMsg.persistenceStatus = some (some .pending))
        ∧ (fails = true →
            (findMsg (saveAssistantMessageAfterStream aid dbc fails s).1
              aid).map ChatMsg.persistenceStatus = some (some .error))) := by
  refine ⟨?_, ?_, ?_⟩
  · intro st
    cases st
    · exact Or.inl rfl
    · exact Or.inr (Or.inl rfl)
    · exact Or.inr (Or.inr rfl)
  · intro id text
    rfl
  · intro aid dbc fails s m hfind hdb hsv htext
    unfold saveAssistantMessageAfterStream
    rw [hfind]
    dsimp only
    rw [if_pos ⟨hdb, hsv, htext⟩]
    by_cases hstr : m.isStreaming = true
    · rw [if_pos hstr]
      have hf1 : findMsg (finalizeStreamingMessage aid s) aid =
          some { m with isStreaming := false } := by
        rw [findMsg_finalize, hfind]
        rfl
      refine ⟨?_, ?_, ?_⟩
      · cases fails <;> rfl
      · intro hf
        subst hf
        rw [if_neg Bool.false_ne_true]
        rw [findMsg_updateMessage, hf1]
        rfl
      · intro hf
        subst hf
        rw [if_pos rfl]
        rw [findMsg_updateMessage, findMsg_updateMessage, hf1]
        rfl
    · rw [if_neg hstr]
      refine ⟨?_, ?_, ?_⟩
      · cases fails <;> rfl
      · intro hf
        subst hf
        rw [if_neg Bool.false_ne_true]
        rw [findMsg_updateMessage, hfind]
        rfl
      · intro hf
        subst hf
        rw [if_pos rfl]
        rw [findMsg_updateMessage, findMsg_updateMessage, hfind]
        rfl

/-- Claim C5, witness: a concrete failed save of a finished assistant
message marks it `pending` before the attempt and `error` after the
failure. -/
theorem persistence_status_lifecycle_witness :
    (newUserMessage "u1" "question").persistenceStatus = some .pending
    ∧ (saveAssistantMessageAfterStream "m2" "db" true
        ⟨[stopMsgW], none, none, none, false⟩).2 = [.saveMsg "m2" "db"]
    ∧ (findMsg (saveAssistantMessageAfterStream "m2" "db" true
        ⟨[stopMsgW], none, none, none, false⟩).1 "m2").map
      ChatMsg.persistenceStatus = some (some .error) := by
  have h := persistence_status_lifecycle.2.2 "m2" "db" true
    ⟨[stopMsgW], none, none, none, false⟩ stopMsgW (by decide) rfl
    (by decide) (by decide)
  exact ⟨persistence_status_lifecycle.2.1 "u1" "question", h.1,
    h.2.2 rfl⟩

/-! ### Chunk-loop invariant (claim C2) -/

theorem msg_text_append_empty (m : ChatMsg) :
    { m with text := m.text ++ "" } = m := by
  cases m
  simp [String.append_empty]

theorem join_concat (l : List String) (c : String) :
    String.join (l ++ [c]) = String.join l ++ c := by
  simp [String.join, List.foldl_append]

theorem findMsg_none_of_fresh {s : ChatState} {aid : String}
    (h : ∀ m ∈ s.messages, m.id ≠ aid) : findMsg s aid = none := by
  unfold findMsg
  rw [List.find?_eq_none]
  intro m hm
  simp [h m hm]

theorem findMsg_addMessage_fresh (s : ChatState) (msg : ChatMsg)
    (h : ∀ m ∈ s.messages, m.id ≠ msg.id) :
    findMsg (addMessage msg s) msg.id = some msg := by
  unfold findMsg addMessage
  rw [List.find?_append]
  have h0 : List.find? (fun m => m.id == msg.id) s.messages = none := by
    rw [List.find?_eq_none]
    intro m hm
    simp [h m hm]
  rw [h0]
  simp

/-- A flush with a truthy id appends the whole buffer to the message and
clears the buffer. -/
theorem flush_step (aid : String) (hne : aid ≠ "") (s : ChatState)
    (r : HookRefs) (m : ChatMsg) (hm : findMsg s aid = some m) :
    findMsg (flushChunkBuffer (some aid) s r).1 aid =
      some { m with text := m.text ++ r.chunkBuffer }
    ∧ (flushChunkBuffer (some aid) s r).2.chunkBuffer = "" := by
  by_cases hbuf : r.chunkBuffer = ""
  · rw [flushChunkBuffer, if_neg (fun hc => hc.2 hbuf)]
    refine ⟨?_, hbuf⟩
    rw [hm, hbuf, msg_text_append_empty]
  · rw [flushChunkBuffer, if_pos ⟨by simp [strFalsy, hne], hbuf⟩]
    refine ⟨?_, rfl⟩
    dsimp only [Option.getD]
    rw [findMsg_append, hm]
    rfl

theorem flush_smid (id : Option String) (s : ChatState) (r : HookRefs) :
    (flushChunkBuffer id s r).1.streamingMessageId = s.streamingMessageId :=
  by
  unfold flushChunkBuffer
  split <;> rfl

theorem flush_noid (s : ChatState) (r : HookRefs) :
    flushChunkBuffer none s r = (s, { r with timerActive := false }) := by
  rw [flushChunkBuffer, if_neg (fun hc => hc.1 rfl)]

/-- The loop invariant: before the assistant message exists nothing has
been received; afterwards the message text plus the pending buffer equals
the concatenation of all chunks received so far, in order. -/
def ChunkInv (aid : String) (processed : List String) (ls : LoopState) :
    Prop :=
  ls.broken = false ∧
  ((ls.assistantMessageId = none ∧ processed = []
      ∧ ls.refs.chunkBuffer = "" ∧ ls.hook.streamingMessageId = none
      ∧ ∀ m ∈ ls.hook.messages, m.id ≠ aid)
    ∨ (ls.assistantMessageId = some aid ∧ processed ≠ []
      ∧ ls.hook.streamingMessageId = some aid
      ∧ ∃ m, findMsg ls.hook aid = some m
          ∧ m.text ++ ls.refs.chunkBuffer = String.join processed))

/-- One loop event preserves the chunk invariant, extending the processed
chunks by the chunk the event delivers. -/
theorem chunkInv_step (aid : String) (hne : aid ≠ "") (ev : StreamEvent)
    (processed : List String) (ls : LoopState)
    (hinv : ChunkInv aid processed ls)
    (hev : ∀ t, ev ≠ .externalStop t) :
    ChunkInv aid (processed ++ chunksOf [ev]) (processEvent aid ev ls) := by
  obtain ⟨hbrk, hcase⟩ := hinv
  cases ev with
  | externalStop t => exact absurd rfl (hev t)
  | timerFire now =>
    show ChunkInv aid (processed ++ []) _
    rw [List.append_nil]
    unfold processEvent
    dsimp only
    by_cases ht : ls.refs.timerActive = true
    · rw [if_pos ht]
      rcases hcase with ⟨hA, hp, hb, hs, hf⟩ | ⟨hA, hp, hs, m, hm, htext⟩
      · rw [hA, flush_noid]
        exact ⟨hbrk, Or.inl ⟨rfl, hp, hb, hs, hf⟩⟩
      · rw [hA]
        have hflush := flush_step aid hne ls.hook ls.refs m hm
        refine ⟨hbrk, Or.inr ⟨rfl, hp, ?_, ?_⟩⟩
        · rw [flush_smid]
          exact hs
        · refine ⟨{ m with text := m.text ++ ls.refs.chunkBuffer },
            hflush.1, ?_⟩
          rw [hflush.2]
          rw [String.append_empty]
          exact htext
    · rw [if_neg ht]
      exact ⟨hbrk, hcase⟩
  | chunk c now =>
    show ChunkInv aid (processed ++ [c]) _
    unfold processEvent
    dsimp only
    rw [if_neg (by rw [hbrk]; exact Bool.false_ne_true)]
    unfold processChunkEvent
    rcases hcase with ⟨hA, hp, hb, hs, hf⟩ | ⟨hA, hp, hs, m, hm, htext⟩
    · -- first chunk: the assistant message is created, then the chunk is
      -- buffered and possibly flushed
      rw [if_pos ⟨hs, hA⟩]
      dsimp only
      have hnew : findMsg (setIsWaitingForResponse false
          { addMessage (newAssistantMessage aid) ls.hook with
            streamingMessageId := some aid }) aid =
          some (newAssistantMessage aid) :=
        findMsg_addMessage_fresh ls.hook (newAssistantMessage aid) hf
      subst hp
      split
      next =>
        -- the stream-ownership check holds right after creation
        split
        next =>
          -- immediate flush
          have hflush := flush_step aid hne (setIsWaitingForResponse false
              { addMessage (newAssistantMessage aid) ls.hook with
                streamingMessageId := some aid })
            { ls.refs with chunkBuffer := ls.refs.chunkBuffer ++ c }
            (newAssistantMessage aid) hnew
          refine ⟨hbrk, Or.inr ⟨rfl, by simp, ?_, ?_⟩⟩
          · rw [flush_smid]
            rfl
          · refine ⟨_, hflush.1, ?_⟩
            rw [hflush.2]
            simp [newAssistantMessage, String.join, hb]
        next =>
          -- timer armed (or already active): the chunk stays in the buffer
          split
          next =>
            refine ⟨hbrk, Or.inr ⟨rfl, by simp, rfl, ?_⟩⟩
            refine ⟨_, hnew, ?_⟩
            simp [newAssistantMessage, String.join, hb]
          next =>
            refine ⟨hbrk, Or.inr ⟨rfl, by simp, rfl, ?_⟩⟩
            refine ⟨_, hnew, ?_⟩
            simp [newAssistantMessage, String.join, hb]
      next hstream2 => exact absurd rfl hstream2
    · -- subsequent chunk: buffered onto the existing message
      rw [if_neg (by rw [hs]; rintro ⟨h1, h2⟩; exact Option.noConfusion h1)]
      dsimp only
      rw [hA]
      dsimp only
      rw [if_pos hs]
      split
      next =>
        have hflush := flush_step aid hne ls.hook
          { ls.refs with chunkBuffer := ls.refs.chunkBuffer ++ c } m hm
        refine ⟨hbrk, Or.inr ⟨rfl, by simp, ?_, ?_⟩⟩
        · rw [flush_smid]
          exact hs
        · refine ⟨_, hflush.1, ?_⟩
          rw [hflush.2]
          rw [String.append_empty]
          show m.text ++ (ls.refs.chunkBuffer ++ c) = _
          rw [join_concat, ← htext, String.append_assoc]
      next =>
        split
        next =>
          refine ⟨hbrk, Or.inr ⟨rfl, by simp, hs, ?_⟩⟩
          refine ⟨m, hm, ?_⟩
          show m.text ++ (ls.refs.chunkBuffer ++ c) = _
          rw [join_concat, ← htext, String.append_assoc]
        next =>
          refine ⟨hbrk, Or.inr ⟨rfl, by simp, hs, ?_⟩⟩
          refine ⟨m, hm, ?_⟩
          show m.text ++ (ls.refs.chunkBuffer ++ c) = _
          rw [join_concat, ← htext, String.append_assoc]

/-- The chunk invariant holds across a whole stop-free trace. -/
theorem chunkInv_run (aid : String) (hne : aid ≠ "")
    (evs : List StreamEvent) (processed : List String) (ls : LoopState)
    (hinv : ChunkInv aid processed ls) (hstop : hasStop evs = false) :
    ChunkInv aid (processed ++ chunksOf evs) (runChunkLoop aid evs ls) := by
  induction evs generalizing processed ls with
  | nil => simpa [runChunkLoop, chunksOf] using hinv
  | cons ev evs ih =>
    have hev : ∀ t, ev ≠ .externalStop t := by
      intro t he
      subst he
      simp [hasStop] at hstop
    have hstop2 : hasStop evs = false := by
      simp only [hasStop, List.any_cons, Bool.or_eq_false_iff] at hstop
      exact hstop.2
    have h1 := chunkInv_step aid hne ev processed ls hinv hev
    have h2 := ih (processed ++ chunksOf [ev]) (processEvent aid ev ls) h1
      hstop2
    have hl : processed ++ chunksOf (ev :: evs) =
        (processed ++ chunksOf [ev]) ++ chunksOf evs := by
      cases ev <;> simp [chunksOf]
    rw [hl]
    exact h2

/-- Claim C2: for every stream that ends without a manual stop, the final
text of the assistant message is exactly the concatenation, in arrival
order, of all chunks received — the buffer is appended when at least 30 ms
(`CHUNK_APPEND_INTERVAL`) have elapsed since the last append, when it
contains a newline or exceeds 200 characters, or when the pending flush
timer fires, and the remaining buffer is flushed once the stream ends.  If
no chunk ever arrives, no assistant message is created. -/
theorem chunk_buffering_lossless
    (aid : String) (hne : aid ≠ "") (evs : List StreamEvent)
    (ls : LoopState)
    (h1 : ls.assistantMessageId = none)
    (h2 : ls.hook.streamingMessageId = none)
    (h3 : ls.refs.chunkBuffer = "")
    (h4 : ls.broken = false)
    (h5 : ∀ m ∈ ls.hook.messages, m.id ≠ aid)
    (h6 : hasStop evs = false) :
    CHUNK_APPEND_INTERVAL = 30
    ∧ (findMsg (finishStream (runChunkLoop aid evs ls)).hook aid).map
        ChatMsg.text =
      (if chunksOf evs = [] then none
       else some (String.join (chunksOf evs))) := by
  refine ⟨rfl, ?_⟩
  have hrun := chunkInv_run aid hne evs [] ls
    ⟨h4, Or.inl ⟨h1, rfl, h3, h2, h5⟩⟩ h6
  rw [List.nil_append] at hrun
  obtain ⟨hbrk, hcase⟩ := hrun
  rcases hcase with ⟨hA, hp, hb, hs, hf⟩ | ⟨hA, hp, hs, m, hm, htext⟩
  · rw [if_pos hp]
    unfold finishStream
    rw [hA, flush_noid]
    dsimp only
    rw [findMsg_none_of_fresh hf]
    rfl
  · rw [if_neg hp]
    unfold finishStream
    rw [hA]
    have hflush := flush_step aid hne (runChunkLoop aid evs ls).hook
      (runChunkLoop aid evs ls).refs m hm
    dsimp only
    rw [hflush.1]
    dsimp only [Option.map]
    show some (m.text ++ (runChunkLoop aid evs ls).refs.chunkBuffer) = _
    rw [htext]

/-- Claim C2, witness: a concrete trace with an immediate flush, a buffered
chunk, a timer flush and a trailing chunk reconstructs the full text. -/
theorem chunk_buffering_lossless_witness :
    (findMsg (finishStream (runChunkLoop "a1"
        [.chunk "Hel" 0, .chunk "lo" 40, .timerFire 60, .chunk "!" 65]
        ⟨⟨[], none, none, none, true⟩, ⟨true, "", false⟩, none, 0,
         false⟩)).hook "a1").map ChatMsg.text =
      some (String.join ["Hel", "lo", "!"]) := by
  have h := chunk_buffering_lossless "a1" (by decide)
    [.chunk "Hel" 0, .chunk "lo" 40, .timerFire 60, .chunk "!" 65]
    ⟨⟨[], none, none, none, true⟩, ⟨true, "", false⟩, none, 0, false⟩
    rfl rfl rfl rfl (by simp) rfl
  have h2 := h.2
  rw [show chunksOf [.chunk "Hel" 0, .chunk "lo" 40, .timerFire 60,
      .chunk "!" 65] = ["Hel", "lo", "!"] from rfl] at h2
  rw [if_neg (by decide)] at h2
  exact h2

end AgentifUI
